import Mathlib

/-!
Verification of the games-catalogue ingestion pipeline (`lib/loadGames.ts`)
and the client filtering / pagination / URL-state code (`app/game-client.tsx`).

JSON-like runtime values are embedded as `JsValue` (JavaScript `undefined` is
`JsValue.undef`; numbers are modelled as rationals, which is exact for every
value `JSON.parse` can produce). Objects are association lists with unique
keys, in insertion order, as produced by `JSON.parse`.
-/

/-- Whitespace test used by the embedding of JavaScript `String.prototype.trim`
and of the regex class `\s`. -/
def isWs (c : Char) : Bool :=
  c = ' ' || c = '\t' || c = '\n' || c = '\r' || c = '\x0b' || c = '\x0c'

/-- Embedding of JavaScript `String.prototype.trim`: drop whitespace from both
ends. -/
def jsTrim (s : String) : String :=
  String.mk ((s.data.dropWhile isWs).rdropWhile isWs)

/-- Embedding of JavaScript `String.prototype.toLowerCase` (character-wise). -/
def jsToLower (s : String) : String :=
  String.mk (s.data.map Char.toLower)

/-- Code-point-wise lexicographic comparison on character lists; the embedding
of the total order induced by the `localeCompare` comparator. -/
def lexLe : List Char → List Char → Bool
  | [], _ => true
  | _ :: _, [] => false
  | a :: as, b :: bs =>
    if a.toNat < b.toNat then true
    else if b.toNat < a.toNat then false
    else lexLe as bs

/-- The string order used to model `Array.prototype.sort` with the
`(a, b) => a.localeCompare(b)` comparator. -/
def strLe (a b : String) : Prop := lexLe a.data b.data = true

instance : DecidableRel strLe := fun a b => by unfold strLe; infer_instance

instance : IsTotal String strLe := by
  constructor
  have key : ∀ (x y : Char) (xs ys : List Char),
      lexLe (x :: xs) (y :: ys) = true ↔
        (x.toNat < y.toNat ∨ (¬y.toNat < x.toNat ∧ lexLe xs ys = true)) := by
    intro x y xs ys
    simp only [lexLe]
    by_cases h1 : x.toNat < y.toNat <;> by_cases h2 : y.toNat < x.toNat <;>
      simp [h1, h2]
  have H : ∀ as bs, lexLe as bs = true ∨ lexLe bs as = true := by
    intro as
    induction as with
    | nil => intro bs; left; rfl
    | cons a as ih =>
      intro bs
      cases bs with
      | nil => right; rfl
      | cons b bs =>
        rw [key, key]
        rcases Nat.lt_trichotomy a.toNat b.toNat with h | h | h
        · left; left; exact h
        · rcases ih bs with h2 | h2
          · left; right; exact ⟨by omega, h2⟩
          · right; right; exact ⟨by omega, h2⟩
        · right; left; exact h
  intro a b
  exact H a.data b.data

instance : IsTrans String strLe := by
  constructor
  have key : ∀ (x y : Char) (xs ys : List Char),
      lexLe (x :: xs) (y :: ys) = true ↔
        (x.toNat < y.toNat ∨ (¬y.toNat < x.toNat ∧ lexLe xs ys = true)) := by
    intro x y xs ys
    simp only [lexLe]
    by_cases h1 : x.toNat < y.toNat <;> by_cases h2 : y.toNat < x.toNat <;>
      simp [h1, h2]
  have H : ∀ as bs cs, lexLe as bs = true → lexLe bs cs = true → lexLe as cs = true := by
    intro as
    induction as with
    | nil => intro bs cs _ _; rfl
    | cons a as ih =>
      intro bs cs h1 h2
      cases bs with
      | nil => simp [lexLe] at h1
      | cons b bs =>
        cases cs with
        | nil => simp [lexLe] at h2
        | cons c cs =>
          rw [key] at h1 h2 ⊢
          rcases h1 with h1 | ⟨h1a, h1b⟩ <;> rcases h2 with h2 | ⟨h2a, h2b⟩
          · left; omega
          · left; omega
          · left; omega
          · right; exact ⟨by omega, ih bs cs h1b h2b⟩
  intro a b c
  exact H a.data b.data c.data

/-- Model of `[...new Set(values)]` / `Array.from(new Set(values))`: keep the
first occurrence of each element, in insertion order. The accumulator is the
set of elements already emitted. -/
def jsSetDedupAux (seen : List String) : List String → List String
  | [] => []
  | x :: xs =>
    if x ∈ seen then jsSetDedupAux seen xs
    else x :: jsSetDedupAux (seen ++ [x]) xs

/-- First-occurrence de-duplication, as done by `new Set(values)`. -/
def jsSetDedup (l : List String) : List String := jsSetDedupAux [] l

/-- Model of `values.sort((a, b) => a.localeCompare(b))`. On duplicate-free
input (the only way it is used) any correct sort agrees with the JavaScript
engine's, so insertion sort is a faithful embedding. -/
def sortStrings (l : List String) : List String := List.insertionSort strLe l

/-- JavaScript runtime values as relevant to this code base. -/
inductive JsValue : Type where
  | null : JsValue
  | undef : JsValue
  | bool (b : Bool) : JsValue
  | num (q : ℚ) : JsValue
  | str (s : String) : JsValue
  | arr (xs : List JsValue) : JsValue
  | obj (fields : List (String × JsValue)) : JsValue

/-- First-match lookup in an object's field list (object keys are unique, so
this is JavaScript property lookup). -/
def lookupField : List (String × JsValue) → String → Option JsValue
  | [], _ => none
  | (k', v) :: fs, k => if k' = k then some v else lookupField fs k

/-- Property read `o[k]`: `undefined` on missing keys and on non-objects (the
only receivers on which the embedded code reads properties after its
null/undefined guard points). -/
def JsValue.getField : JsValue → String → JsValue
  | .obj fs, k => (lookupField fs k).getD .undef
  | _, _ => (.undef : JsValue)

/-- Property assignment as performed by an object literal with spread: replace
the value at an existing key in place, otherwise append the key. -/
def setKey : List (String × JsValue) → String → JsValue → List (String × JsValue)
  | [], k, v => [(k, v)]
  | (k', v') :: fs, k, v =>
    if k' = k then (k, v) :: fs else (k', v') :: setKey fs k v

mutual
/-- Embedding of `trimStrings` from `lib/loadGames.ts`: arrays map element-wise
through `trimStrings`; object values that are strings are trimmed, other object
values recurse; every other value (including a top-level string) is returned
unchanged. -/
def trimStrings : JsValue → JsValue
  | .arr xs => .arr (trimList xs)
  | .obj fs => .obj (trimFields fs)
  | v => v

def trimList : List JsValue → List JsValue
  | [] => []
  | v :: vs => trimStrings v :: trimList vs

def trimFields : List (String × JsValue) → List (String × JsValue)
  | [] => []
  | (k, v) :: fs =>
    (k, match v with | .str s => .str (jsTrim s) | w => trimStrings w) :: trimFields fs
end

/-- The transform `trimStrings` applies to a single object value. -/
def trimValue (v : JsValue) : JsValue :=
  match v with | .str s => .str (jsTrim s) | w => trimStrings w

/-- Character class `\w` of the slug regexes (ASCII word characters). -/
def isWordChar (c : Char) : Bool :=
  ('a' ≤ c && c ≤ 'z') || ('A' ≤ c && c ≤ 'Z') || ('0' ≤ c && c ≤ '9') || c = '_'

/-- Character class `[\s_-]` of the run-collapsing slug regex. -/
def isDashy (c : Char) : Bool := isWs c || c = '_' || c = '-'

/-- Replace every maximal run of `[\s_-]` characters by a single hyphen; the
flag records whether the previous character was part of such a run. -/
def collapseDashRuns : Bool → List Char → List Char
  | _, [] => []
  | inRun, c :: cs =>
    if isDashy c then
      (if inRun then [] else ['-']) ++ collapseDashRuns true cs
    else c :: collapseDashRuns false cs

/-- Strip leading and trailing hyphens (`replace(/^-+|-+$/g, '')`). -/
def trimDashes (l : List Char) : List Char :=
  (l.dropWhile (fun c => c = '-')).rdropWhile (fun c => c = '-')

/-- Embedding of `slugify` from `lib/loadGames.ts`: lower-case, trim, delete
characters outside `\w`, `\s`, `-`, collapse `[\s_-]` runs to `-`, and strip
leading/trailing hyphens. -/
def slugify (s : String) : String :=
  String.mk
    (trimDashes
      (collapseDashRuns false
        (((jsTrim (jsToLower s)).data.filter
          (fun c => isWordChar c || isWs c || c = '-')))))

/-- Embedding of `normaliseNullishString` on an actual string: trim, then map
the sentinels `""`, `"null"`, `"null,"` (compared lower-cased) to `null`. -/
def normaliseNullishString (s : String) : Option String :=
  if jsToLower (jsTrim s) ∈ (["", "null", "null,"] : List String) then none
  else some (jsTrim s)

/-- `normaliseNullishString` on a `string | null | undefined` value (any
non-string input yields `null`). -/
def nnsOpt (x : Option String) : Option String := x.bind normaliseNullishString

/-- JavaScript `x || ''` for `x : string | null` (the empty string is falsy). -/
def jsOrEmpty : Option String → String
  | some s => if s = "" then "" else s
  | none => ""

/-- `typeof v === 'string' ? v : undefined` as an `Option`. -/
def readStr? (v : JsValue) : Option String :=
  match v with | .str s => some s | _ => none

/-- `typeof v === 'number' ? v : undefined` as an `Option`. -/
def readNum? (v : JsValue) : Option ℚ :=
  match v with | .num q => some q | _ => none

/-- Re-inject a possibly-undefined number into a field value. -/
def numOrUndef : Option ℚ → JsValue
  | some q => .num q
  | none => (.undef : JsValue)

/-- Re-inject a possibly-null string into a field value. -/
def strOrNull : Option String → JsValue
  | some s => .str s
  | none => .null

/-- The range guard of `loadGames`: when both bounds are numbers and
`min > max`, swap them. -/
def swapRange (a b : Option ℚ) : Option ℚ × Option ℚ :=
  match a, b with
  | some x, some y => if x > y then (some y, some x) else (some x, some y)
  | x, y => (x, y)

/-- Identifier derivation of `loadGames` on the trimmed record: an explicit
string `id` wins; otherwise a truthy `name` is slugified; otherwise `''`. -/
def deriveId (t : JsValue) : String :=
  match t.getField "id" with
  | .str s => s
  | _ =>
    match readStr? (t.getField "name") with
    | some n => if n = "" then "" else slugify n
    | none => ""

/-- The fields of an object (empty for non-objects, which spread to no own
enumerable properties in the cases reachable here). -/
def objFields : JsValue → List (String × JsValue)
  | .obj fs => fs
  | _ => []

/-- The fields of the `gameToNormalise` object literal of `loadGames`: spread
the trimmed record, then assign `id`, `name`, `description`, `category`,
`prepLevel`, `ageMin`, `ageMax`, `playersMin`, `playersMax` in literal
order. -/
def candidateFields (t : JsValue) : List (String × JsValue) :=
  let name? := readStr? (t.getField "name")
  let age := swapRange (readNum? (t.getField "ageMin")) (readNum? (t.getField "ageMax"))
  let players :=
    swapRange (readNum? (t.getField "playersMin")) (readNum? (t.getField "playersMax"))
  setKey
    (setKey
      (setKey
        (setKey
          (setKey
            (setKey
              (setKey
                (setKey
                  (setKey (objFields t) "id" (.str (deriveId t)))
                  "name" (.str (jsOrEmpty (nnsOpt name?))))
                "description" (strOrNull (nnsOpt (readStr? (t.getField "description")))))
              "category" (strOrNull (nnsOpt (readStr? (t.getField "category")))))
            "prepLevel" (strOrNull (nnsOpt (readStr? (t.getField "prepLevel")))))
          "ageMin" (numOrUndef age.1))
        "ageMax" (numOrUndef age.2))
      "playersMin" (numOrUndef players.1))
    "playersMax" (numOrUndef players.2)

/-- The `gameToNormalise` candidate object itself. -/
def buildCandidate (t : JsValue) : JsValue := .obj (candidateFields t)

/-- Per-record normalisation on the trimmed record: `none` when the record is
skipped for lack of a derivable id, otherwise the normalised candidate. -/
def recordCandidate (t : JsValue) : Option JsValue :=
  if deriveId t = "" then none else some (buildCandidate t)

/-- Whether a value is `null` or `undefined` — exactly the receivers on which
a property read throws a `TypeError`. -/
def isNullish (v : JsValue) : Bool :=
  match v with | .null => true | .undef => true | _ => false

/-- The per-record normalisation step of `loadGames`, with the JavaScript
`TypeError` thrown by reading `trimmedGame.name` on `null`/`undefined`
modelled as `Except.error`. -/
def normalizeRecord (r : JsValue) : Except Unit (Option JsValue) :=
  if isNullish (trimStrings r) then .error ()
  else .ok (recordCandidate (trimStrings r))

/-- The catalogue entity, `z.infer<typeof GameSchema>` from `lib/types.ts`.
`null` and absent (`undefined`) optional values are both `none`; validated
integers are stored as `Int`. -/
structure Game where
  id : String
  name : String
  description : Option String
  category : Option String
  ageMin : Option Int
  ageMax : Option Int
  playersMin : Option Int
  playersMax : Option Int
  recommendedPlayersText : Option String
  equipment : Option String
  generalRules : List String
  variations : List String
  skillsDeveloped : List String
  tags : List String
  regionalPopularity : List String
  regionalNames : List String
  keywords : List String
  traditionality : Option String
  historicalNotes : Option String
  notes : Option String
  relatedGames : List String
  links : List String
  prepLevel : Option String
  deriving DecidableEq, Repr

/-- `z.string().min(1)`: the value must be a non-empty string. -/
def reqStrOk (v : JsValue) : Bool :=
  match v with | .str s => s ≠ "" | _ => false

/-- `z.string().nullable().optional()`: string, `null`, or absent. -/
def optStrOk (v : JsValue) : Bool :=
  match v with | .str _ => true | .null => true | .undef => true | _ => false

/-- `z.number().int().nullable().optional()`: an integral number, `null`, or
absent. -/
def optIntOk (v : JsValue) : Bool :=
  match v with | .num q => q.den = 1 | .null => true | .undef => true | _ => false

/-- `z.array(z.string()).default([])`: absent, or an array of strings. -/
def strListOk (v : JsValue) : Bool :=
  match v with
  | .undef => true
  | .arr xs => xs.all (fun x => match x with | .str _ => true | _ => false)
  | _ => false

/-- The field-by-field checks of `GameSchema.safeParse` (unknown keys are
ignored because `z.object` strips them). -/
def gameSchemaCheck (v : JsValue) : Bool :=
  (match v with | .obj _ => true | _ => false) &&
  reqStrOk (v.getField "id") &&
  reqStrOk (v.getField "name") &&
  optStrOk (v.getField "description") &&
  optStrOk (v.getField "category") &&
  optIntOk (v.getField "ageMin") &&
  optIntOk (v.getField "ageMax") &&
  optIntOk (v.getField "playersMin") &&
  optIntOk (v.getField "playersMax") &&
  optStrOk (v.getField "recommendedPlayersText") &&
  optStrOk (v.getField "equipment") &&
  strListOk (v.getField "generalRules") &&
  strListOk (v.getField "variations") &&
  strListOk (v.getField "skillsDeveloped") &&
  strListOk (v.getField "tags") &&
  strListOk (v.getField "regionalPopularity") &&
  strListOk (v.getField "regionalNames") &&
  strListOk (v.getField "keywords") &&
  optStrOk (v.getField "traditionality") &&
  optStrOk (v.getField "historicalNotes") &&
  optStrOk (v.getField "notes") &&
  strListOk (v.getField "relatedGames") &&
  strListOk (v.getField "links") &&
  optStrOk (v.getField "prepLevel")

/-- Read a validated required string field. -/
def readReqStr (v : JsValue) : String :=
  match v with | .str s => s | _ => ""

/-- Read a validated optional string field (`null`/absent become `none`). -/
def readOptStr (v : JsValue) : Option String :=
  match v with | .str s => some s | _ => none

/-- Read a validated optional integer field. -/
def readOptInt (v : JsValue) : Option Int :=
  match v with | .num q => some q.num | _ => none

/-- Read a validated string-array field (`.default([])` fills absent ones). -/
def readStrList (v : JsValue) : List String :=
  match v with
  | .arr xs => xs.filterMap (fun x => match x with | .str s => some s | _ => none)
  | _ => []

/-- The typed record `GameSchema.safeParse` produces on success. -/
def gameSchemaRead (v : JsValue) : Game where
  id := readReqStr (v.getField "id")
  name := readReqStr (v.getField "name")
  description := readOptStr (v.getField "description")
  category := readOptStr (v.getField "category")
  ageMin := readOptInt (v.getField "ageMin")
  ageMax := readOptInt (v.getField "ageMax")
  playersMin := readOptInt (v.getField "playersMin")
  playersMax := readOptInt (v.getField "playersMax")
  recommendedPlayersText := readOptStr (v.getField "recommendedPlayersText")
  equipment := readOptStr (v.getField "equipment")
  generalRules := readStrList (v.getField "generalRules")
  variations := readStrList (v.getField "variations")
  skillsDeveloped := readStrList (v.getField "skillsDeveloped")
  tags := readStrList (v.getField "tags")
  regionalPopularity := readStrList (v.getField "regionalPopularity")
  regionalNames := readStrList (v.getField "regionalNames")
  keywords := readStrList (v.getField "keywords")
  traditionality := readOptStr (v.getField "traditionality")
  historicalNotes := readOptStr (v.getField "historicalNotes")
  notes := readOptStr (v.getField "notes")
  relatedGames := readStrList (v.getField "relatedGames")
  links := readStrList (v.getField "links")
  prepLevel := readOptStr (v.getField "prepLevel")

/-- Embedding of `GameSchema.safeParse`: `some` of the typed record exactly
when every field check passes. -/
def validateGame (v : JsValue) : Option Game :=
  if gameSchemaCheck v then some (gameSchemaRead v) else none

/-- One iteration of the `loadGames` loop: trim, derive the id, skip on
missing or already-seen ids (before validation), otherwise record the id as
seen and validate. Reading a property of a `null`/`undefined` record throws. -/
def loadStep (seen : List String) (r : JsValue) :
    Except Unit (List String × Option Game) :=
  if isNullish (trimStrings r) then .error ()
  else
    let id := deriveId (trimStrings r)
    if id = "" ∨ id ∈ seen then .ok (seen, none)
    else .ok (seen ++ [id], validateGame (buildCandidate (trimStrings r)))

/-- The `loadGames` loop over the raw records, threading `seenIds`. -/
def loadAux (seen : List String) : List JsValue → Except Unit (List Game)
  | [] => .ok []
  | r :: rs =>
    match loadStep seen r with
    | .error e => .error e
    | .ok (seen', g?) =>
      match loadAux seen' rs with
      | .error e => .error e
      | .ok gs => .ok (g?.toList ++ gs)

/-- Embedding of `loadGames` applied to the parsed contents of `games.json`:
the list of normalised games, or an error when the loop throws. -/
def loadGames (rawData : List JsValue) : Except Unit (List Game) :=
  loadAux [] rawData

/-- The per-stream id of a raw record as `loadGames` computes it. -/
def recId (r : JsValue) : String := deriveId (trimStrings r)

/-- The contribution of a single raw record to the catalogue, ignoring
de-duplication: normalise and validate. -/
def recordAdmit (r : JsValue) : Option Game :=
  (recordCandidate (trimStrings r)).bind validateGame

/-- Per-record outcome of the pipeline (ignoring de-duplication), with a
thrown `TypeError` collapsed to `none`. -/
def recordOutcome (r : JsValue) : Option Game :=
  match normalizeRecord r with
  | .error _ => none
  | .ok c? => c?.bind validateGame

/-- Overwrite one field of a raw object record (identity on non-objects). -/
def setObjKey (r : JsValue) (k : String) (v : JsValue) : JsValue :=
  match r with
  | .obj fs => .obj (setKey fs k v)
  | w => w

/-- Projection of the three normalised optional string fields of a `Game`,
keyed by field name. -/
def gameStrField (g : Game) (k : String) : Option String :=
  if k = "description" then g.description
  else if k = "category" then g.category
  else if k = "prepLevel" then g.prepLevel
  else none

/-- The client filter state of `app/game-client.tsx` (`FiltersState`). -/
structure FiltersState where
  query : String
  page : Int
  category : List String
  tags : List String
  traditionality : List String
  prepLevel : List String
  skillsDeveloped : List String
  regionalPopularity : List String
  deriving DecidableEq, Repr

/-- The default filters (`createDefaultFilters`). -/
def createDefaultFilters : FiltersState :=
  { query := "", page := 1, category := [], tags := [], traditionality := []
    prepLevel := [], skillsDeveloped := [], regionalPopularity := [] }

/-- One scalar-facet check of `filteredGames`: with a non-empty selection the
record passes exactly when its value is truthy (non-null, non-empty) and a
member of the selection. -/
def scalarFacetPasses (sel : List String) (v : Option String) : Bool :=
  sel.isEmpty ||
    (match v with
     | none => false
     | some s => if s = "" then false else sel.contains s)

/-- One array-facet check of `filteredGames`: with a non-empty selection the
record passes exactly when some element of its array is selected. -/
def arrayFacetPasses (sel : List String) (vs : List String) : Bool :=
  sel.isEmpty || vs.any (fun t => sel.contains t)

/-- The facet predicate of `filteredGames` in `app/game-client.tsx` (the six
early-return checks, conjoined). -/
def matchesFilters (f : FiltersState) (g : Game) : Bool :=
  scalarFacetPasses f.category g.category &&
  arrayFacetPasses f.tags g.tags &&
  scalarFacetPasses f.traditionality g.traditionality &&
  scalarFacetPasses f.prepLevel g.prepLevel &&
  arrayFacetPasses f.skillsDeveloped g.skillsDeveloped &&
  arrayFacetPasses f.regionalPopularity g.regionalPopularity

/-- Embedding of the `filteredGames` memo: a trimmed empty query keeps the
catalogue in its original order, otherwise the fuzzy search (abstracted as
`search`) supplies the base sequence; the facet predicate then filters it. -/
def filteredGames (search : String → List Game) (allGames : List Game)
    (f : FiltersState) : List Game :=
  (if jsTrim f.query = "" then allGames else search (jsTrim f.query)).filter
    (fun g => matchesFilters f g)

/-- Spec-side facet constraint: an empty selection imposes no constraint and a
non-empty selection requires a non-empty intersection with the record's
values. -/
def specFacetHolds (sel vals : List String) : Bool :=
  sel.isEmpty || sel.any (fun s => vals.contains s)

/-- Spec-side conjunction over all six facet keys (AND across facets, OR
within one facet), scalar fields contributing their value as a
zero-or-one-element list. -/
def specSatisfiesFacets (f : FiltersState) (g : Game) : Bool :=
  specFacetHolds f.category g.category.toList &&
  specFacetHolds f.tags g.tags &&
  specFacetHolds f.traditionality g.traditionality.toList &&
  specFacetHolds f.prepLevel g.prepLevel.toList &&
  specFacetHolds f.skillsDeveloped g.skillsDeveloped &&
  specFacetHolds f.regionalPopularity g.regionalPopularity

/-- Catalogue records whose scalar facet fields are never the empty string
(the data-model invariant for those fields). -/
def scalarsNonEmpty (g : Game) : Prop :=
  g.category ≠ some "" ∧ g.traditionality ≠ some "" ∧ g.prepLevel ≠ some ""

/-- `Math.ceil(n / perPage)` for `perPage = 12`. -/
def totalPagesOf (n : Nat) : Nat := (n + 11) / 12

/-- `Math.min(filters.page, totalPages || 1)` — the effective current page. -/
def currentPage (p : Int) (tp : Nat) : Int :=
  min p (if tp = 0 then 1 else (tp : Int))

/-- Embedding of `Array.prototype.slice` for integer indices. -/
def jsSlice {α : Type} (l : List α) (a b : Int) : List α :=
  let n : Int := l.length
  let s := (if a < 0 then max (n + a) 0 else min a n).toNat
  let e := (if b < 0 then max (n + b) 0 else min b n).toNat
  (l.drop s).take (e - s)

/-- The `paginatedGames` slice of `app/game-client.tsx`. -/
def paginatedGames (gs : List Game) (p : Int) : List Game :=
  jsSlice gs ((p - 1) * 12) (p * 12)

/-- A digit character, `'0'` through `'9'`. -/
def digitChar10 (d : Nat) : Char := Char.ofNat (48 + d)

/-- Digit test used by the integer parser. -/
def isDigitChar (c : Char) : Bool := 48 ≤ c.toNat && c.toNat ≤ 57

/-- Numeric value of a digit character. -/
def charDigit10 (c : Char) : Nat := c.toNat - 48

/-- Decimal numeral of a natural number (the JavaScript `String(n)` form). -/
def natNumeral (n : Nat) : String :=
  if n = 0 then "0" else String.mk ((Nat.digits 10 n).reverse.map digitChar10)

/-- JavaScript `String(n)` for integers. -/
def intToString (n : Int) : String :=
  if n < 0 then "-" ++ natNumeral n.natAbs else natNumeral n.toNat

/-- The digit-run parser behind `Number.parseInt`: the value of the leading
decimal digits, `none` (`NaN`) when there are none. -/
def parseDigitsCore (cs : List Char) : Option Int :=
  let ds := cs.takeWhile isDigitChar
  if ds = [] then none
  else some ((Nat.ofDigits 10 ((ds.map charDigit10).reverse) : Nat) : Int)

/-- Embedding of `Number.parseInt(s, 10)` as exercised here: an optional minus
sign followed by at least one leading digit; `none` models `NaN`. -/
def jsParseInt (s : String) : Option Int :=
  match s.data with
  | [] => none
  | c :: cs =>
    if c = '-' then (parseDigitsCore cs).map (fun n => -n)
    else parseDigitsCore (c :: cs)

/-- Embedding of `parsePageParam`: `null`/empty is falsy, `NaN` and values
below 1 fall back to the default page 1. -/
def parsePageParam : Option String → Int
  | none => 1
  | some s =>
    if s = "" then 1
    else
      match jsParseInt s with
      | none => 1
      | some n => if n < 1 then 1 else n

/-- `URLSearchParams` modelled as an ordered list of key/value pairs (URL
percent-encoding is a bijection and is elided). -/
def getParam (ps : List (String × String)) (k : String) : Option String :=
  (ps.find? (fun p => p.1 = k)).map Prod.snd

/-- `params.getAll(k)`: every value stored under `k`, in order. -/
def getAllParam (ps : List (String × String)) (k : String) : List String :=
  ps.filterMap (fun p => if p.1 = k then some p.2 else none)

/-- The repeated `key=value` pairs appended for one facet. -/
def facetPairs (k : String) (vs : List String) : List (String × String) :=
  vs.map (fun v => (k, v))

/-- The decode-side processing of one facet's raw values in
`buildFiltersFromParams`: trim, drop empties, then (when any remain)
de-duplicate and sort. -/
def canonVals (vs : List String) : List String :=
  let values := (vs.map jsTrim).filter (fun s => ¬s = "")
  if values.isEmpty then [] else sortStrings (jsSetDedup values)

/-- Embedding of `buildFiltersFromParams` from `app/game-client.tsx`. -/
def buildFiltersFromParams (ps : List (String × String)) : FiltersState :=
  { query := (getParam ps "q").getD ""
    page := parsePageParam (getParam ps "page")
    category := canonVals (getAllParam ps "category")
    tags := canonVals (getAllParam ps "tags")
    traditionality := canonVals (getAllParam ps "traditionality")
    prepLevel := canonVals (getAllParam ps "prepLevel")
    skillsDeveloped := canonVals (getAllParam ps "skillsDeveloped")
    regionalPopularity := canonVals (getAllParam ps "regionalPopularity") }

/-- Embedding of the URL-sync effect of `GameClient`: set `q` for a non-empty
trimmed query, append each facet's in-memory values verbatim in `facetKeys`
order, and set `page` when the effective current page exceeds 1. -/
def encodeParams (f : FiltersState) (tp : Nat) : List (String × String) :=
  (if jsTrim f.query = "" then [] else [("q", jsTrim f.query)]) ++
  facetPairs "category" f.category ++
  facetPairs "tags" f.tags ++
  facetPairs "traditionality" f.traditionality ++
  facetPairs "prepLevel" f.prepLevel ++
  facetPairs "skillsDeveloped" f.skillsDeveloped ++
  facetPairs "regionalPopularity" f.regionalPopularity ++
  (if currentPage f.page tp > 1 then [("page", intToString (currentPage f.page tp))]
   else [])

/-- The canonicalisation named by the round-trip law: apply the codec's own
trimming, de-duplication and sorting rules to the query, page, and each
facet's selected values. -/
def canonicalizeClaim (f : FiltersState) : FiltersState :=
  { query := jsTrim f.query
    page := if f.page < 1 then 1 else f.page
    category := canonVals f.category
    tags := canonVals f.tags
    traditionality := canonVals f.traditionality
    prepLevel := canonVals f.prepLevel
    skillsDeveloped := canonVals f.skillsDeveloped
    regionalPopularity := canonVals f.regionalPopularity }

/-- A raw record carrying an explicit id and name (used as sample data). -/
def sampleTag : JsValue := .obj [("id", .str "tag"), ("name", .str "Tag")]

/-- A raw record sharing the id `"tag"` but failing validation (its `name` is
missing, so the candidate's required `name` is empty). -/
def sampleBadTag : JsValue := .obj [("id", .str "tag")]

/-- A raw record with an inverted age range and a single player bound. -/
def sampleInverted : JsValue :=
  .obj [("id", .str "tag"), ("name", .str "Tag"), ("ageMin", .num 12),
        ("ageMax", .num 8), ("playersMin", .num 2)]

/-- A raw record whose `description` holds a number. -/
def sampleNumDescription : JsValue :=
  .obj [("id", .str "tag"), ("name", .str "Tag"), ("description", .num 3)]

/-- The normalised candidate produced from `sampleTag`. -/
def sampleTagCandidate : JsValue :=
  .obj [("id", .str "tag"), ("name", .str "Tag"), ("description", .null),
        ("category", .null), ("prepLevel", .null), ("ageMin", .undef),
        ("ageMax", .undef), ("playersMin", .undef), ("playersMax", .undef)]

/-- The catalogue entity produced from `sampleTag`. -/
def gameTag : Game :=
  { id := "tag", name := "Tag", description := none, category := none
    ageMin := none, ageMax := none, playersMin := none, playersMax := none
    recommendedPlayersText := none, equipment := none, generalRules := []
    variations := [], skillsDeveloped := [], tags := [], regionalPopularity := []
    regionalNames := [], keywords := [], traditionality := none
    historicalNotes := none, notes := none, relatedGames := [], links := []
    prepLevel := none }

/-- A catalogue record in the `Party` category with two tags. -/
def gameParty : Game :=
  { gameTag with id := "party", name := "Party Game", category := some "Party"
                 tags := ["active", "ball"] }

/-- A catalogue record whose `traditionality` is the empty string (such records
are expressible in the schema, which does not forbid empty optional
strings). -/
def gameEmptyTrad : Game := { gameTag with traditionality := some "" }

/-- A filter state selecting the empty string on the `traditionality` facet. -/
def filtersEmptyTrad : FiltersState := { createDefaultFilters with traditionality := [""] }

/-- A filter state selecting the `Party` category. -/
def filtersParty : FiltersState := { createDefaultFilters with category := ["Party"] }

/-- A filter state requesting page 2 with no query and no selections. -/
def filtersPageTwo : FiltersState := { createDefaultFilters with page := 2 }

/-- A filter state whose `tags` selection is not sorted. -/
def filtersUnsortedTags : FiltersState := { createDefaultFilters with tags := ["b", "a"] }

theorem jsTrim_empty : jsTrim "" = "" := rfl

theorem jsTrim_idem (s : String) : jsTrim (jsTrim s) = jsTrim s := by
  unfold jsTrim
  congr 1
  show ((((s.data.dropWhile isWs).rdropWhile isWs).dropWhile isWs).rdropWhile isWs) =
    (s.data.dropWhile isWs).rdropWhile isWs
  have hA : (s.data.dropWhile isWs).dropWhile isWs = s.data.dropWhile isWs :=
    List.dropWhile_idempotent _ _
  have hpre : (s.data.dropWhile isWs).rdropWhile isWs <+: s.data.dropWhile isWs :=
    List.rdropWhile_prefix _ _
  have hB : ((s.data.dropWhile isWs).rdropWhile isWs).dropWhile isWs =
      (s.data.dropWhile isWs).rdropWhile isWs := by
    rw [List.dropWhile_eq_self_iff]
    intro hl
    have hlen : 0 < (s.data.dropWhile isWs).length := hl.trans_le hpre.length_le
    have h2 := List.dropWhile_eq_self_iff.mp hA hlen
    simp only [List.get_eq_getElem] at h2 ⊢
    rw [hpre.getElem hl]
    exact h2
  rw [hB, List.rdropWhile_idempotent]

theorem jsTrim_eq_self_of_no_ws (s : String) (h : ∀ c ∈ s.data, isWs c = false) :
    jsTrim s = s := by
  unfold jsTrim
  have h1 : s.data.dropWhile isWs = s.data := by
    rw [List.dropWhile_eq_self_iff]
    intro hl
    simp only [Bool.not_eq_true]
    exact h _ (List.get_mem _ _ _)
  rw [h1]
  have h2 : s.data.rdropWhile isWs = s.data := by
    rw [List.rdropWhile_eq_self_iff]
    intro hl
    simp only [Bool.not_eq_true]
    exact h _ (List.getLast_mem hl)
  rw [h2]

theorem nns_empty : normaliseNullishString "" = none := by decide

theorem nns_some_fixed {s t : String} (h : normaliseNullishString s = some t) :
    t ≠ "" ∧ jsTrim t = t ∧ normaliseNullishString t = some t := by
  unfold normaliseNullishString at h
  by_cases hc : jsToLower (jsTrim s) ∈ (["", "null", "null,"] : List String)
  · simp [hc] at h
  · simp only [hc, if_false, Option.some.injEq] at h
    subst h
    refine ⟨?_, jsTrim_idem s, ?_⟩
    · intro he
      rw [he] at hc
      exact hc (by decide)
    · unfold normaliseNullishString
      rw [jsTrim_idem, if_neg hc]


theorem trimFields_cons (k : String) (v : JsValue) (fs : List (String × JsValue)) :
    trimFields ((k, v) :: fs) = (k, trimValue v) :: trimFields fs := by
  cases v <;> rfl

mutual
theorem trimStrings_idem : ∀ v, trimStrings (trimStrings v) = trimStrings v
  | .null => rfl
  | .undef => rfl
  | .bool _ => rfl
  | .num _ => rfl
  | .str _ => rfl
  | .arr xs => congrArg JsValue.arr (trimList_idem xs)
  | .obj fs => congrArg JsValue.obj (trimFields_idem fs)

theorem trimList_idem : ∀ l, trimList (trimList l) = trimList l
  | [] => rfl
  | v :: vs => by
    simp only [trimList]
    rw [trimStrings_idem v, trimList_idem vs]

theorem trimFields_idem : ∀ fs, trimFields (trimFields fs) = trimFields fs
  | [] => rfl
  | (k, v) :: fs => by
    rw [trimFields_cons, trimFields_cons, trimFields_idem fs, trimValue_idem v]

theorem trimValue_idem : ∀ v, trimValue (trimValue v) = trimValue v
  | .null => rfl
  | .undef => rfl
  | .bool _ => rfl
  | .num _ => rfl
  | .str s => congrArg JsValue.str (jsTrim_idem s)
  | .arr xs => congrArg JsValue.arr (trimList_idem xs)
  | .obj fs => congrArg JsValue.obj (trimFields_idem fs)
end

theorem mem_trimFields_fixed :
    ∀ fs, ∀ p ∈ trimFields fs, trimValue p.2 = p.2
  | [], p, hp => absurd hp (by simp [trimFields])
  | (k, v) :: fs, p, hp => by
    rw [trimFields_cons] at hp
    rcases List.mem_cons.mp hp with h | h
    · subst h; exact trimValue_idem v
    · exact mem_trimFields_fixed fs p h

theorem trimFields_eq_self_of (fs : List (String × JsValue))
    (h : ∀ p ∈ fs, trimValue p.2 = p.2) : trimFields fs = fs := by
  induction fs with
  | nil => rfl
  | cons p fs ih =>
    obtain ⟨k, v⟩ := p
    rw [trimFields_cons]
    rw [h (k, v) (List.mem_cons_self _ _), ih (fun q hq => h q (List.mem_cons_of_mem _ hq))]

theorem lookupField_setKey_self (fs : List (String × JsValue)) (k : String) (v : JsValue) :
    lookupField (setKey fs k v) k = some v := by
  induction fs with
  | nil => simp [setKey, lookupField]
  | cons p fs ih =>
    obtain ⟨k', v'⟩ := p
    by_cases h : k' = k
    · subst h; simp [setKey, lookupField]
    · simp [setKey, h, lookupField, ih]

theorem lookupField_setKey_ne (fs : List (String × JsValue)) (k k' : String) (v : JsValue)
    (h : k ≠ k') : lookupField (setKey fs k v) k' = lookupField fs k' := by
  induction fs with
  | nil => simp [setKey, lookupField, h]
  | cons p fs ih =>
    obtain ⟨k'', v''⟩ := p
    by_cases h2 : k'' = k
    · subst h2; simp [setKey, lookupField, h]
    · simp [setKey, h2, lookupField, ih]

theorem setKey_eq_self (fs : List (String × JsValue)) (k : String) (v : JsValue)
    (h : lookupField fs k = some v) : setKey fs k v = fs := by
  induction fs with
  | nil => simp [lookupField] at h
  | cons p fs ih =>
    obtain ⟨k', v'⟩ := p
    by_cases h2 : k' = k
    · subst h2
      rw [lookupField, if_pos rfl] at h
      injection h with h
      subst h
      simp [setKey]
    · simp only [lookupField, h2, if_false] at h
      simp [setKey, h2, ih h]

theorem mem_setKey (fs : List (String × JsValue)) (k : String) (v : JsValue) :
    ∀ p ∈ setKey fs k v, p ∈ fs ∨ p = (k, v) := by
  induction fs with
  | nil => intro p hp; simp [setKey] at hp; right; exact hp
  | cons q fs ih =>
    obtain ⟨k', v'⟩ := q
    intro p hp
    by_cases h2 : k' = k
    · subst h2
      simp only [setKey, if_pos rfl] at hp
      rcases List.mem_cons.mp hp with h | h
      · right; exact h
      · left; exact List.mem_cons_of_mem _ h
    · simp only [setKey, h2, if_false] at hp
      rcases List.mem_cons.mp hp with h | h
      · left; exact h ▸ List.mem_cons_self _ _
      · rcases ih p h with h3 | h3
        · left; exact List.mem_cons_of_mem _ h3
        · right; exact h3

theorem getField_obj (fs : List (String × JsValue)) (k : String) :
    (JsValue.obj fs).getField k = (lookupField fs k).getD .undef := rfl

theorem lookupField_trimFields (fs : List (String × JsValue)) (k : String) :
    lookupField (trimFields fs) k = (lookupField fs k).map trimValue := by
  induction fs with
  | nil => rfl
  | cons p fs ih =>
    obtain ⟨k', v⟩ := p
    rw [trimFields_cons]
    by_cases h : k' = k
    · subst h; simp [lookupField]
    · simp [lookupField, h, ih]

theorem getField_trimStrings (r : JsValue) (k : String) :
    (trimStrings r).getField k = trimValue (r.getField k) := by
  cases r with
  | obj fs =>
    show (JsValue.obj (trimFields fs)).getField k = _
    rw [getField_obj, getField_obj, lookupField_trimFields]
    cases lookupField fs k <;> rfl
  | null => rfl
  | undef => rfl
  | bool b => rfl
  | num q => rfl
  | str s => rfl
  | arr xs => rfl

theorem collapseDashRuns_mem (b : Bool) (l : List Char) :
    ∀ c ∈ collapseDashRuns b l, c = '-' ∨ isDashy c = false := by
  induction l generalizing b with
  | nil => intro c hc; simp [collapseDashRuns] at hc
  | cons a l ih =>
    intro c hc
    by_cases h : isDashy a
    · simp only [collapseDashRuns, if_pos h] at hc
      rcases List.mem_append.mp hc with h2 | h2
      · left
        cases b with
        | true => simp at h2
        | false => simpa using h2
      · exact ih true c h2
    · simp only [collapseDashRuns, if_neg h] at hc
      rcases List.mem_cons.mp hc with h2 | h2
      · right; subst h2; exact Bool.not_eq_true _ ▸ (by simpa using h)
      · exact ih false c h2

theorem slugify_no_ws (s : String) : ∀ c ∈ (slugify s).data, isWs c = false := by
  intro c hc
  have hc2 : c ∈ collapseDashRuns false ((jsTrim (jsToLower s)).data.filter
      (fun c => isWordChar c || isWs c || c = '-')) := by
    have h1 : (slugify s).data = trimDashes (collapseDashRuns false _) := rfl
    rw [h1] at hc
    unfold trimDashes at hc
    exact (((List.rdropWhile_prefix _ _).sublist).trans (List.dropWhile_sublist _)).subset hc
  rcases collapseDashRuns_mem _ _ c hc2 with h | h
  · subst h; decide
  · unfold isDashy at h
    simp only [Bool.or_eq_false_iff] at h
    exact h.1.1

theorem jsTrim_slugify (s : String) : jsTrim (slugify s) = slugify s :=
  jsTrim_eq_self_of_no_ws _ (slugify_no_ws s)


theorem lookupField_mem {fs : List (String × JsValue)} {k : String} {v : JsValue}
    (h : lookupField fs k = some v) : (k, v) ∈ fs := by
  induction fs with
  | nil => simp [lookupField] at h
  | cons p fs ih =>
    obtain ⟨k', v'⟩ := p
    by_cases h2 : k' = k
    · subst h2
      rw [lookupField, if_pos rfl] at h
      injection h with h
      subst h
      exact List.mem_cons_self _ _
    · rw [lookupField, if_neg h2] at h
      exact List.mem_cons_of_mem _ (ih h)

theorem lookupField_candidate_id (t : JsValue) :
    lookupField (candidateFields t) "id" = some (.str (deriveId t)) := by
  unfold candidateFields
  rw [lookupField_setKey_ne _ _ _ _ (by decide), lookupField_setKey_ne _ _ _ _ (by decide),
    lookupField_setKey_ne _ _ _ _ (by decide), lookupField_setKey_ne _ _ _ _ (by decide),
    lookupField_setKey_ne _ _ _ _ (by decide), lookupField_setKey_ne _ _ _ _ (by decide),
    lookupField_setKey_ne _ _ _ _ (by decide), lookupField_setKey_ne _ _ _ _ (by decide),
    lookupField_setKey_self]

theorem lookupField_candidate_name (t : JsValue) :
    lookupField (candidateFields t) "name" =
      some (.str (jsOrEmpty (nnsOpt (readStr? (t.getField "name"))))) := by
  unfold candidateFields
  rw [lookupField_setKey_ne _ _ _ _ (by decide), lookupField_setKey_ne _ _ _ _ (by decide),
    lookupField_setKey_ne _ _ _ _ (by decide), lookupField_setKey_ne _ _ _ _ (by decide),
    lookupField_setKey_ne _ _ _ _ (by decide), lookupField_setKey_ne _ _ _ _ (by decide),
    lookupField_setKey_ne _ _ _ _ (by decide), lookupField_setKey_self]

theorem lookupField_candidate_description (t : JsValue) :
    lookupField (candidateFields t) "description" =
      some (strOrNull (nnsOpt (readStr? (t.getField "description")))) := by
  unfold candidateFields
  rw [lookupField_setKey_ne _ _ _ _ (by decide), lookupField_setKey_ne _ _ _ _ (by decide),
    lookupField_setKey_ne _ _ _ _ (by decide), lookupField_setKey_ne _ _ _ _ (by decide),
    lookupField_setKey_ne _ _ _ _ (by decide), lookupField_setKey_ne _ _ _ _ (by decide),
    lookupField_setKey_self]

theorem lookupField_candidate_category (t : JsValue) :
    lookupField (candidateFields t) "category" =
      some (strOrNull (nnsOpt (readStr? (t.getField "category")))) := by
  unfold candidateFields
  rw [lookupField_setKey_ne _ _ _ _ (by decide), lookupField_setKey_ne _ _ _ _ (by decide),
    lookupField_setKey_ne _ _ _ _ (by decide), lookupField_setKey_ne _ _ _ _ (by decide),
    lookupField_setKey_ne _ _ _ _ (by decide), lookupField_setKey_self]

theorem lookupField_candidate_prepLevel (t : JsValue) :
    lookupField (candidateFields t) "prepLevel" =
      some (strOrNull (nnsOpt (readStr? (t.getField "prepLevel")))) := by
  unfold candidateFields
  rw [lookupField_setKey_ne _ _ _ _ (by decide), lookupField_setKey_ne _ _ _ _ (by decide),
    lookupField_setKey_ne _ _ _ _ (by decide), lookupField_setKey_ne _ _ _ _ (by decide),
    lookupField_setKey_self]

theorem lookupField_candidate_ageMin (t : JsValue) :
    lookupField (candidateFields t) "ageMin" =
      some (numOrUndef
        (swapRange (readNum? (t.getField "ageMin")) (readNum? (t.getField "ageMax"))).1) := by
  unfold candidateFields
  rw [lookupField_setKey_ne _ _ _ _ (by decide), lookupField_setKey_ne _ _ _ _ (by decide),
    lookupField_setKey_ne _ _ _ _ (by decide), lookupField_setKey_self]

theorem lookupField_candidate_ageMax (t : JsValue) :
    lookupField (candidateFields t) "ageMax" =
      some (numOrUndef
        (swapRange (readNum? (t.getField "ageMin")) (readNum? (t.getField "ageMax"))).2) := by
  unfold candidateFields
  rw [lookupField_setKey_ne _ _ _ _ (by decide), lookupField_setKey_ne _ _ _ _ (by decide),
    lookupField_setKey_self]

theorem lookupField_candidate_playersMin (t : JsValue) :
    lookupField (candidateFields t) "playersMin" =
      some (numOrUndef
        (swapRange (readNum? (t.getField "playersMin"))
          (readNum? (t.getField "playersMax"))).1) := by
  unfold candidateFields
  rw [lookupField_setKey_ne _ _ _ _ (by decide), lookupField_setKey_self]

theorem lookupField_candidate_playersMax (t : JsValue) :
    lookupField (candidateFields t) "playersMax" =
      some (numOrUndef
        (swapRange (readNum? (t.getField "playersMin"))
          (readNum? (t.getField "playersMax"))).2) := by
  unfold candidateFields
  rw [lookupField_setKey_self]

theorem lookupField_candidate_other (t : JsValue) (k : String)
    (h1 : k ≠ "id") (h2 : k ≠ "name") (h3 : k ≠ "description") (h4 : k ≠ "category")
    (h5 : k ≠ "prepLevel") (h6 : k ≠ "ageMin") (h7 : k ≠ "ageMax")
    (h8 : k ≠ "playersMin") (h9 : k ≠ "playersMax") :
    lookupField (candidateFields t) k = lookupField (objFields t) k := by
  unfold candidateFields
  rw [lookupField_setKey_ne _ _ _ _ (Ne.symm h9), lookupField_setKey_ne _ _ _ _ (Ne.symm h8),
    lookupField_setKey_ne _ _ _ _ (Ne.symm h7), lookupField_setKey_ne _ _ _ _ (Ne.symm h6),
    lookupField_setKey_ne _ _ _ _ (Ne.symm h5), lookupField_setKey_ne _ _ _ _ (Ne.symm h4),
    lookupField_setKey_ne _ _ _ _ (Ne.symm h3), lookupField_setKey_ne _ _ _ _ (Ne.symm h2),
    lookupField_setKey_ne _ _ _ _ (Ne.symm h1)]

theorem getField_buildCandidate (t : JsValue) (k : String) :
    (buildCandidate t).getField k = (lookupField (candidateFields t) k).getD .undef := rfl

theorem getField_buildCandidate_id (t : JsValue) :
    (buildCandidate t).getField "id" = .str (deriveId t) := by
  rw [getField_buildCandidate, lookupField_candidate_id]; rfl

theorem deriveId_buildCandidate (t : JsValue) :
    deriveId (buildCandidate t) = deriveId t := by
  unfold deriveId
  rw [getField_buildCandidate_id]
  exact rfl

theorem deriveId_ne_empty_obj {t : JsValue} (h : deriveId t ≠ "") :
    ∃ fs, t = .obj fs := by
  cases t with
  | obj fs => exact ⟨fs, rfl⟩
  | null => exact absurd rfl h
  | undef => exact absurd rfl h
  | bool b => exact absurd rfl h
  | num q => exact absurd rfl h
  | str s => exact absurd rfl h
  | arr xs => exact absurd rfl h

theorem getField_fixed_str {t : JsValue} (ht : trimStrings t = t) {k s : String}
    (h : t.getField k = .str s) : jsTrim s = s := by
  have h2 := getField_trimStrings t k
  rw [ht, h] at h2
  simp only [trimValue] at h2
  injection h2 with h3
  exact h3.symm

theorem jsTrim_deriveId (t : JsValue) (ht : trimStrings t = t) :
    jsTrim (deriveId t) = deriveId t := by
  unfold deriveId
  cases hid : t.getField "id"
  case str s => exact getField_fixed_str ht hid
  all_goals
    cases hn : readStr? (t.getField "name") with
    | some n =>
      by_cases he : n = ""
      · simp [he, jsTrim_empty]
      · simp [he, jsTrim_slugify]
    | none => exact jsTrim_empty

theorem readStr?_strOrNull (y : Option String) : readStr? (strOrNull y) = y := by
  cases y <;> rfl

theorem readNum?_numOrUndef (x : Option ℚ) : readNum? (numOrUndef x) = x := by
  cases x <;> rfl

theorem nnsOpt_idem (x : Option String) : nnsOpt (nnsOpt x) = nnsOpt x := by
  cases x with
  | none => rfl
  | some s =>
    show nnsOpt (normaliseNullishString s) = normaliseNullishString s
    cases hs : normaliseNullishString s with
    | none => rfl
    | some u => exact (nns_some_fixed hs).2.2

theorem nns_jsOrEmpty (x : Option String) :
    normaliseNullishString (jsOrEmpty (nnsOpt x)) = nnsOpt x := by
  cases x with
  | none => exact nns_empty
  | some s =>
    show normaliseNullishString (jsOrEmpty (normaliseNullishString s)) =
      normaliseNullishString s
    cases hs : normaliseNullishString s with
    | none => exact nns_empty
    | some u =>
      obtain ⟨hne, _, hfix⟩ := nns_some_fixed hs
      simp [jsOrEmpty, hne, hfix]

theorem jsTrim_jsOrEmpty_nns (x : Option String) :
    jsTrim (jsOrEmpty (nnsOpt x)) = jsOrEmpty (nnsOpt x) := by
  cases x with
  | none => exact jsTrim_empty
  | some s =>
    show jsTrim (jsOrEmpty (normaliseNullishString s)) = jsOrEmpty (normaliseNullishString s)
    cases hs : normaliseNullishString s with
    | none => exact jsTrim_empty
    | some u =>
      obtain ⟨hne, htr, _⟩ := nns_some_fixed hs
      simp [jsOrEmpty, hne, htr]

theorem swapRange_idem (a b : Option ℚ) :
    swapRange (swapRange a b).1 (swapRange a b).2 = swapRange a b := by
  cases a with
  | none => cases b <;> rfl
  | some x =>
    cases b with
    | none => rfl
    | some y =>
      by_cases h : x > y
      · simp [swapRange, h, lt_asymm h]
      · simp [swapRange, h]

theorem trimValue_numOrUndef (x : Option ℚ) : trimValue (numOrUndef x) = numOrUndef x := by
  cases x <;> rfl

theorem trimValue_strOrNull_nnsOpt (x : Option String) :
    trimValue (strOrNull (nnsOpt x)) = strOrNull (nnsOpt x) := by
  cases hx : nnsOpt x with
  | none => rfl
  | some u =>
    cases x with
    | none => simp [nnsOpt] at hx
    | some s =>
      obtain ⟨_, htr, _⟩ := nns_some_fixed hx
      simp [trimValue, strOrNull, htr]

theorem getField_buildCandidate_name (t : JsValue) :
    (buildCandidate t).getField "name" =
      .str (jsOrEmpty (nnsOpt (readStr? (t.getField "name")))) := by
  rw [getField_buildCandidate, lookupField_candidate_name]; rfl

theorem getField_buildCandidate_description (t : JsValue) :
    (buildCandidate t).getField "description" =
      strOrNull (nnsOpt (readStr? (t.getField "description"))) := by
  rw [getField_buildCandidate, lookupField_candidate_description]; rfl

theorem getField_buildCandidate_category (t : JsValue) :
    (buildCandidate t).getField "category" =
      strOrNull (nnsOpt (readStr? (t.getField "category"))) := by
  rw [getField_buildCandidate, lookupField_candidate_category]; rfl

theorem getField_buildCandidate_prepLevel (t : JsValue) :
    (buildCandidate t).getField "prepLevel" =
      strOrNull (nnsOpt (readStr? (t.getField "prepLevel"))) := by
  rw [getField_buildCandidate, lookupField_candidate_prepLevel]; rfl

theorem getField_buildCandidate_ageMin (t : JsValue) :
    (buildCandidate t).getField "ageMin" =
      numOrUndef
        (swapRange (readNum? (t.getField "ageMin")) (readNum? (t.getField "ageMax"))).1 := by
  rw [getField_buildCandidate, lookupField_candidate_ageMin]; rfl

theorem getField_buildCandidate_ageMax (t : JsValue) :
    (buildCandidate t).getField "ageMax" =
      numOrUndef
        (swapRange (readNum? (t.getField "ageMin")) (readNum? (t.getField "ageMax"))).2 := by
  rw [getField_buildCandidate, lookupField_candidate_ageMax]; rfl

theorem getField_buildCandidate_playersMin (t : JsValue) :
    (buildCandidate t).getField "playersMin" =
      numOrUndef
        (swapRange (readNum? (t.getField "playersMin"))
          (readNum? (t.getField "playersMax"))).1 := by
  rw [getField_buildCandidate, lookupField_candidate_playersMin]; rfl

theorem getField_buildCandidate_playersMax (t : JsValue) :
    (buildCandidate t).getField "playersMax" =
      numOrUndef
        (swapRange (readNum? (t.getField "playersMin"))
          (readNum? (t.getField "playersMax"))).2 := by
  rw [getField_buildCandidate, lookupField_candidate_playersMax]; rfl

theorem objFields_buildCandidate (t : JsValue) :
    objFields (buildCandidate t) = candidateFields t := rfl

theorem trimStrings_buildCandidate {t : JsValue} {fs : List (String × JsValue)}
    (ht : trimStrings t = t) (hobj : t = .obj fs) :
    trimStrings (buildCandidate t) = buildCandidate t := by
  have hfs : trimFields fs = fs := by
    have h2 := ht
    rw [hobj, trimStrings] at h2
    injection h2
  have hbase : ∀ p ∈ objFields t, trimValue p.2 = p.2 := by
    intro p hp
    rw [hobj] at hp
    have hp2 : p ∈ fs := by simpa [objFields] using hp
    exact mem_trimFields_fixed fs p (by rw [hfs]; exact hp2)
  show JsValue.obj (trimFields (candidateFields t)) = JsValue.obj (candidateFields t)
  rw [trimFields_eq_self_of]
  intro p hp
  unfold candidateFields at hp
  rcases mem_setKey _ _ _ p hp with hp | rfl
  · rcases mem_setKey _ _ _ p hp with hp | rfl
    · rcases mem_setKey _ _ _ p hp with hp | rfl
      · rcases mem_setKey _ _ _ p hp with hp | rfl
        · rcases mem_setKey _ _ _ p hp with hp | rfl
          · rcases mem_setKey _ _ _ p hp with hp | rfl
            · rcases mem_setKey _ _ _ p hp with hp | rfl
              · rcases mem_setKey _ _ _ p hp with hp | rfl
                · rcases mem_setKey _ _ _ p hp with hp | rfl
                  · exact hbase p hp
                  · exact congrArg JsValue.str (jsTrim_deriveId t ht)
                · exact congrArg JsValue.str (jsTrim_jsOrEmpty_nns _)
              · exact trimValue_strOrNull_nnsOpt _
            · exact trimValue_strOrNull_nnsOpt _
          · exact trimValue_strOrNull_nnsOpt _
        · exact trimValue_numOrUndef _
      · exact trimValue_numOrUndef _
    · exact trimValue_numOrUndef _
  · exact trimValue_numOrUndef _


theorem readStr?_str (s : String) : readStr? (.str s) = some s := rfl

theorem nnsOpt_some (s : String) : nnsOpt (some s) = normaliseNullishString s := rfl

theorem buildCandidate_idem (t : JsValue) :
    buildCandidate (buildCandidate t) = buildCandidate t := by
  show JsValue.obj (candidateFields (buildCandidate t)) = buildCandidate t
  have step : candidateFields (buildCandidate t) = candidateFields t := by
    conv_lhs => unfold candidateFields
    rw [objFields_buildCandidate, deriveId_buildCandidate, getField_buildCandidate_name,
      getField_buildCandidate_description, getField_buildCandidate_category,
      getField_buildCandidate_prepLevel, getField_buildCandidate_ageMin,
      getField_buildCandidate_ageMax, getField_buildCandidate_playersMin,
      getField_buildCandidate_playersMax]
    simp only [readStr?_str, readStr?_strOrNull, nnsOpt_some, nns_jsOrEmpty, nnsOpt_idem,
      readNum?_numOrUndef, swapRange_idem]
    rw [setKey_eq_self _ _ _ (lookupField_candidate_id t),
      setKey_eq_self _ _ _ (lookupField_candidate_name t),
      setKey_eq_self _ _ _ (lookupField_candidate_description t),
      setKey_eq_self _ _ _ (lookupField_candidate_category t),
      setKey_eq_self _ _ _ (lookupField_candidate_prepLevel t),
      setKey_eq_self _ _ _ (lookupField_candidate_ageMin t),
      setKey_eq_self _ _ _ (lookupField_candidate_ageMax t),
      setKey_eq_self _ _ _ (lookupField_candidate_playersMin t),
      setKey_eq_self _ _ _ (lookupField_candidate_playersMax t)]
  rw [step]
  rfl


theorem readNum?_trimValue (v : JsValue) : readNum? (trimValue v) = readNum? v := by
  cases v <;> rfl

theorem readStr?_eq_none {v : JsValue} (h : ∀ s, v ≠ .str s) : readStr? v = none := by
  cases v with
  | str s => exact absurd rfl (h s)
  | null => rfl
  | undef => rfl
  | bool b => rfl
  | num q => rfl
  | arr xs => rfl
  | obj fs => rfl

theorem trimValue_not_str {v : JsValue} (h : ∀ s, v ≠ .str s) :
    ∀ s, trimValue v ≠ .str s := by
  cases v with
  | str s => exact absurd rfl (h s)
  | null => intro s hs; exact JsValue.noConfusion hs
  | undef => intro s hs; exact JsValue.noConfusion hs
  | bool b => intro s hs; exact JsValue.noConfusion hs
  | num q => intro s hs; exact JsValue.noConfusion hs
  | arr xs => intro s hs; exact JsValue.noConfusion hs
  | obj fs => intro s hs; exact JsValue.noConfusion hs

theorem trimFields_setKey (fs : List (String × JsValue)) (k : String) (v : JsValue) :
    trimFields (setKey fs k v) = setKey (trimFields fs) k (trimValue v) := by
  induction fs with
  | nil =>
    show trimFields [(k, v)] = [(k, trimValue v)]
    rw [trimFields_cons]; rfl
  | cons p fs ih =>
    obtain ⟨k', v'⟩ := p
    by_cases h : k' = k
    · subst h
      rw [show setKey ((k', v') :: fs) k' v = (k', v) :: fs from by rw [setKey, if_pos rfl]]
      rw [trimFields_cons, trimFields_cons]
      rw [show setKey ((k', trimValue v') :: trimFields fs) k' (trimValue v) =
        (k', trimValue v) :: trimFields fs from by rw [setKey, if_pos rfl]]
    · rw [show setKey ((k', v') :: fs) k v = (k', v') :: setKey fs k v from by
        rw [setKey, if_neg h]]
      rw [trimFields_cons, trimFields_cons, ih]
      rw [show setKey ((k', trimValue v') :: trimFields fs) k (trimValue v) =
        (k', trimValue v') :: setKey (trimFields fs) k (trimValue v) from by
        rw [setKey, if_neg h]]

theorem getField_obj_setKey_ne (fs : List (String × JsValue)) (k key : String) (v : JsValue)
    (h : k ≠ key) :
    (JsValue.obj (setKey fs k v)).getField key = (JsValue.obj fs).getField key := by
  rw [getField_obj, getField_obj, lookupField_setKey_ne _ _ _ _ h]

theorem getField_obj_setKey_self (fs : List (String × JsValue)) (k : String) (v : JsValue) :
    (JsValue.obj (setKey fs k v)).getField k = v := by
  rw [getField_obj, lookupField_setKey_self]; rfl

theorem getField_buildCandidate_full (t : JsValue) (key : String) :
    (buildCandidate t).getField key =
      if key = "id" then .str (deriveId t)
      else if key = "name" then .str (jsOrEmpty (nnsOpt (readStr? (t.getField "name"))))
      else if key = "description" then
        strOrNull (nnsOpt (readStr? (t.getField "description")))
      else if key = "category" then strOrNull (nnsOpt (readStr? (t.getField "category")))
      else if key = "prepLevel" then strOrNull (nnsOpt (readStr? (t.getField "prepLevel")))
      else if key = "ageMin" then
        numOrUndef
          (swapRange (readNum? (t.getField "ageMin")) (readNum? (t.getField "ageMax"))).1
      else if key = "ageMax" then
        numOrUndef
          (swapRange (readNum? (t.getField "ageMin")) (readNum? (t.getField "ageMax"))).2
      else if key = "playersMin" then
        numOrUndef
          (swapRange (readNum? (t.getField "playersMin"))
            (readNum? (t.getField "playersMax"))).1
      else if key = "playersMax" then
        numOrUndef
          (swapRange (readNum? (t.getField "playersMin"))
            (readNum? (t.getField "playersMax"))).2
      else (JsValue.obj (objFields t)).getField key := by
  by_cases h1 : key = "id"
  · subst h1; rw [if_pos rfl]; exact getField_buildCandidate_id t
  rw [if_neg h1]
  by_cases h2 : key = "name"
  · subst h2; rw [if_pos rfl]; exact getField_buildCandidate_name t
  rw [if_neg h2]
  by_cases h3 : key = "description"
  · subst h3; rw [if_pos rfl]; exact getField_buildCandidate_description t
  rw [if_neg h3]
  by_cases h4 : key = "category"
  · subst h4; rw [if_pos rfl]; exact getField_buildCandidate_category t
  rw [if_neg h4]
  by_cases h5 : key = "prepLevel"
  · subst h5; rw [if_pos rfl]; exact getField_buildCandidate_prepLevel t
  rw [if_neg h5]
  by_cases h6 : key = "ageMin"
  · subst h6; rw [if_pos rfl]; exact getField_buildCandidate_ageMin t
  rw [if_neg h6]
  by_cases h7 : key = "ageMax"
  · subst h7; rw [if_pos rfl]; exact getField_buildCandidate_ageMax t
  rw [if_neg h7]
  by_cases h8 : key = "playersMin"
  · subst h8; rw [if_pos rfl]; exact getField_buildCandidate_playersMin t
  rw [if_neg h8]
  by_cases h9 : key = "playersMax"
  · subst h9; rw [if_pos rfl]; exact getField_buildCandidate_playersMax t
  rw [if_neg h9]
  rw [getField_buildCandidate, getField_obj,
    lookupField_candidate_other t key h1 h2 h3 h4 h5 h6 h7 h8 h9]

theorem validateGame_congr {v w : JsValue}
    (hv : ∃ fs, v = .obj fs) (hw : ∃ fs, w = .obj fs)
    (h : ∀ key, v.getField key = w.getField key) :
    validateGame v = validateGame w := by
  obtain ⟨fs1, rfl⟩ := hv
  obtain ⟨fs2, rfl⟩ := hw
  unfold validateGame gameSchemaCheck gameSchemaRead
  simp only [h]


theorem numOrUndef_eq_num {z : Option ℚ} {a : ℚ} (h : numOrUndef z = .num a) :
    z = some a := by
  cases z with
  | none => exact JsValue.noConfusion h
  | some x => injection h with h; rw [h]

theorem swapRange_le {x y : Option ℚ} {a b : ℚ}
    (h1 : (swapRange x y).1 = some a) (h2 : (swapRange x y).2 = some b) : a ≤ b := by
  cases x with
  | none =>
    cases y with
    | none => simp [swapRange] at h1
    | some w => simp [swapRange] at h1
  | some u =>
    cases y with
    | none => simp [swapRange] at h2
    | some w =>
      by_cases h : u > w
      · simp only [swapRange, if_pos h, Option.some.injEq] at h1 h2
        subst h1; subst h2
        exact le_of_lt h
      · simp only [swapRange, if_neg h, Option.some.injEq] at h1 h2
        subst h1; subst h2
        exact le_of_not_lt h

/-- C9: the Normalizer is idempotent on its own output — whenever per-record
normalisation (recursive string trimming, nullish-sentinel normalisation, id
derivation and range correction) turns a raw record `r` into the candidate
`c`, normalising `c` again reproduces exactly `c`. -/
theorem normalizer_idempotent (r c : JsValue) (h : normalizeRecord r = .ok (some c)) :
    normalizeRecord c = .ok (some c) := by
  unfold normalizeRecord at h
  by_cases hn : isNullish (trimStrings r)
  · rw [if_pos hn] at h; exact absurd h (by simp)
  · rw [if_neg hn] at h
    injection h with h
    unfold recordCandidate at h
    by_cases hid : deriveId (trimStrings r) = ""
    · rw [if_pos hid] at h; exact absurd h (by simp)
    · rw [if_neg hid] at h
      injection h with h
      subst h
      have ht : trimStrings (trimStrings r) = trimStrings r := trimStrings_idem r
      obtain ⟨fs, hobj⟩ := deriveId_ne_empty_obj hid
      have hfix : trimStrings (buildCandidate (trimStrings r)) =
          buildCandidate (trimStrings r) := trimStrings_buildCandidate ht hobj
      unfold normalizeRecord
      rw [hfix]
      have hnn : isNullish (buildCandidate (trimStrings r)) = false := rfl
      rw [hnn]
      simp only [Bool.false_eq_true, if_false]
      unfold recordCandidate
      rw [deriveId_buildCandidate, if_neg hid, buildCandidate_idem]

/-- C9 witness: a concrete record and its normalised candidate, on which the
normaliser is checked to be idempotent by applying the theorem. -/
theorem normalizer_idempotent_witness :
    normalizeRecord sampleTag = .ok (some sampleTagCandidate) ∧
    normalizeRecord sampleTagCandidate = .ok (some sampleTagCandidate) :=
  ⟨rfl, normalizer_idempotent sampleTag sampleTagCandidate rfl⟩

/-- C4: range correction — if both bounds of the age (resp. players) pair are
numbers with `min > max`, the normalised candidate carries them swapped and
hence ordered; whenever both bounds appear as numbers in the candidate they
satisfy `min ≤ max`; and a record with at most one bound present keeps that
bound unchanged (the missing bound stays absent). -/
theorem range_correction (r : JsValue) :
    (∀ a b : ℚ, r.getField "ageMin" = .num a → r.getField "ageMax" = .num b → a > b →
      (buildCandidate (trimStrings r)).getField "ageMin" = .num b ∧
      (buildCandidate (trimStrings r)).getField "ageMax" = .num a ∧ b ≤ a) ∧
    (∀ a b : ℚ, r.getField "playersMin" = .num a → r.getField "playersMax" = .num b →
      a > b →
      (buildCandidate (trimStrings r)).getField "playersMin" = .num b ∧
      (buildCandidate (trimStrings r)).getField "playersMax" = .num a ∧ b ≤ a) ∧
    (∀ a b : ℚ, (buildCandidate (trimStrings r)).getField "ageMin" = .num a →
      (buildCandidate (trimStrings r)).getField "ageMax" = .num b → a ≤ b) ∧
    (∀ a b : ℚ, (buildCandidate (trimStrings r)).getField "playersMin" = .num a →
      (buildCandidate (trimStrings r)).getField "playersMax" = .num b → a ≤ b) ∧
    (∀ a : ℚ, r.getField "ageMin" = .num a → readNum? (r.getField "ageMax") = none →
      (buildCandidate (trimStrings r)).getField "ageMin" = .num a ∧
      (buildCandidate (trimStrings r)).getField "ageMax" = .undef) ∧
    (∀ b : ℚ, r.getField "ageMax" = .num b → readNum? (r.getField "ageMin") = none →
      (buildCandidate (trimStrings r)).getField "ageMax" = .num b ∧
      (buildCandidate (trimStrings r)).getField "ageMin" = .undef) ∧
    (∀ a : ℚ, r.getField "playersMin" = .num a →
      readNum? (r.getField "playersMax") = none →
      (buildCandidate (trimStrings r)).getField "playersMin" = .num a ∧
      (buildCandidate (trimStrings r)).getField "playersMax" = .undef) ∧
    (∀ b : ℚ, r.getField "playersMax" = .num b →
      readNum? (r.getField "playersMin") = none →
      (buildCandidate (trimStrings r)).getField "playersMax" = .num b ∧
      (buildCandidate (trimStrings r)).getField "playersMin" = .undef) := by
  have hAmin : readNum? ((trimStrings r).getField "ageMin") =
      readNum? (r.getField "ageMin") := by rw [getField_trimStrings, readNum?_trimValue]
  have hAmax : readNum? ((trimStrings r).getField "ageMax") =
      readNum? (r.getField "ageMax") := by rw [getField_trimStrings, readNum?_trimValue]
  have hPmin : readNum? ((trimStrings r).getField "playersMin") =
      readNum? (r.getField "playersMin") := by rw [getField_trimStrings, readNum?_trimValue]
  have hPmax : readNum? ((trimStrings r).getField "playersMax") =
      readNum? (r.getField "playersMax") := by rw [getField_trimStrings, readNum?_trimValue]
  refine ⟨?_, ?_, ?_, ?_, ?_, ?_, ?_, ?_⟩
  · intro a b ha hb hgt
    rw [getField_buildCandidate_ageMin, getField_buildCandidate_ageMax, hAmin, hAmax,
      ha, hb]
    simp only [readNum?, swapRange, if_pos hgt]
    exact ⟨rfl, rfl, le_of_lt hgt⟩
  · intro a b ha hb hgt
    rw [getField_buildCandidate_playersMin, getField_buildCandidate_playersMax, hPmin,
      hPmax, ha, hb]
    simp only [readNum?, swapRange, if_pos hgt]
    exact ⟨rfl, rfl, le_of_lt hgt⟩
  · intro a b ha hb
    rw [getField_buildCandidate_ageMin] at ha
    rw [getField_buildCandidate_ageMax] at hb
    exact swapRange_le (numOrUndef_eq_num ha) (numOrUndef_eq_num hb)
  · intro a b ha hb
    rw [getField_buildCandidate_playersMin] at ha
    rw [getField_buildCandidate_playersMax] at hb
    exact swapRange_le (numOrUndef_eq_num ha) (numOrUndef_eq_num hb)
  · intro a ha hbnone
    rw [getField_buildCandidate_ageMin, getField_buildCandidate_ageMax, hAmin, hAmax,
      ha, hbnone]
    simp only [readNum?, swapRange]
    exact ⟨rfl, rfl⟩
  · intro b hb hanone
    rw [getField_buildCandidate_ageMin, getField_buildCandidate_ageMax, hAmin, hAmax,
      hb, hanone]
    simp only [readNum?, swapRange]
    exact ⟨rfl, rfl⟩
  · intro a ha hbnone
    rw [getField_buildCandidate_playersMin, getField_buildCandidate_playersMax, hPmin,
      hPmax, ha, hbnone]
    simp only [readNum?, swapRange]
    exact ⟨rfl, rfl⟩
  · intro b hb hanone
    rw [getField_buildCandidate_playersMin, getField_buildCandidate_playersMax, hPmin,
      hPmax, hb, hanone]
    simp only [readNum?, swapRange]
    exact ⟨rfl, rfl⟩

/-- C4 witness: the record with `ageMin 12 / ageMax 8` and only `playersMin 2`
is normalised to the swapped age range with the player bound unchanged. -/
theorem range_correction_witness :
    (buildCandidate (trimStrings sampleInverted)).getField "ageMin" = .num 8 ∧
    (buildCandidate (trimStrings sampleInverted)).getField "ageMax" = .num 12 ∧
    (8 : ℚ) ≤ 12 ∧
    (buildCandidate (trimStrings sampleInverted)).getField "playersMin" = .num 2 ∧
    (buildCandidate (trimStrings sampleInverted)).getField "playersMax" = .undef := by
  obtain ⟨h1, _, _, _, _, _, h7, _⟩ := range_correction sampleInverted
  obtain ⟨ha, hb, hc⟩ := h1 12 8 rfl rfl (by norm_num)
  obtain ⟨hd, he⟩ := h7 2 rfl rfl
  exact ⟨ha, hb, hc, hd, he⟩


theorem buildCandidate_obj (t : JsValue) : ∃ fs, buildCandidate t = .obj fs :=
  ⟨candidateFields t, rfl⟩

theorem recordOutcome_obj (fs : List (String × JsValue)) :
    recordOutcome (JsValue.obj fs) =
      (recordCandidate (JsValue.obj (trimFields fs))).bind validateGame := rfl

/-- C10: a record whose `description`, `category` or `prepLevel` field holds a
non-string, non-null value is never rejected on that field — the per-record
pipeline outcome is the same as if the field were `null`, and any resulting
catalogue entity carries `none` in that field. -/
theorem coerced_optional_fields (r : JsValue) (k : String)
    (hk : k ∈ (["description", "category", "prepLevel"] : List String))
    (hstr : ∀ s, r.getField k ≠ .str s) (hnull : r.getField k ≠ .null) :
    recordOutcome r = recordOutcome (setObjKey r k .null) ∧
    ∀ g, recordOutcome r = some g → gameStrField g k = none := by
  have hks : k = "description" ∨ k = "category" ∨ k = "prepLevel" := by
    simpa using hk
  have hkid : k ≠ "id" := by rcases hks with rfl | rfl | rfl <;> decide
  have hkname : k ≠ "name" := by rcases hks with rfl | rfl | rfl <;> decide
  have hkAmin : k ≠ "ageMin" := by rcases hks with rfl | rfl | rfl <;> decide
  have hkAmax : k ≠ "ageMax" := by rcases hks with rfl | rfl | rfl <;> decide
  have hkPmin : k ≠ "playersMin" := by rcases hks with rfl | rfl | rfl <;> decide
  have hkPmax : k ≠ "playersMax" := by rcases hks with rfl | rfl | rfl <;> decide
  cases r with
  | null =>
    refine ⟨rfl, fun g hg => ?_⟩
    exact absurd hg (by simp [show recordOutcome JsValue.null = none from rfl])
  | undef =>
    refine ⟨rfl, fun g hg => ?_⟩
    exact absurd hg (by simp [show recordOutcome JsValue.undef = none from rfl])
  | bool b =>
    refine ⟨rfl, fun g hg => ?_⟩
    exact absurd hg (by simp [show recordOutcome (JsValue.bool b) = none from rfl])
  | num q =>
    refine ⟨rfl, fun g hg => ?_⟩
    exact absurd hg (by simp [show recordOutcome (JsValue.num q) = none from rfl])
  | str s =>
    refine ⟨rfl, fun g hg => ?_⟩
    exact absurd hg (by simp [show recordOutcome (JsValue.str s) = none from rfl])
  | arr xs =>
    refine ⟨rfl, fun g hg => ?_⟩
    exact absurd hg (by simp [show recordOutcome (JsValue.arr xs) = none from rfl])
  | obj fs =>
    have hset : setObjKey (JsValue.obj fs) k .null = JsValue.obj (setKey fs k .null) := rfl
    have htf2 : trimFields (setKey fs k .null) = setKey (trimFields fs) k .null := by
      rw [trimFields_setKey]; rfl
    have hgf : ∀ key, key ≠ k →
        (JsValue.obj (setKey (trimFields fs) k .null)).getField key =
          (JsValue.obj (trimFields fs)).getField key :=
      fun key hkey => getField_obj_setKey_ne _ _ _ _ (Ne.symm hkey)
    have hgfk : (JsValue.obj (setKey (trimFields fs) k .null)).getField k = .null :=
      getField_obj_setKey_self _ _ _
    have ht1k : ∀ s, (JsValue.obj (trimFields fs)).getField k ≠ .str s := by
      intro s
      have h2 := getField_trimStrings (JsValue.obj fs) k
      rw [show trimStrings (JsValue.obj fs) = JsValue.obj (trimFields fs) from rfl] at h2
      rw [h2]
      exact trimValue_not_str hstr s
    have hreadStr : ∀ key, readStr?
        ((JsValue.obj (setKey (trimFields fs) k .null)).getField key) =
        readStr? ((JsValue.obj (trimFields fs)).getField key) := by
      intro key
      by_cases hkey : key = k
      · subst hkey
        rw [hgfk, readStr?_eq_none ht1k]
        rfl
      · rw [hgf key hkey]
    have hderive : deriveId (JsValue.obj (setKey (trimFields fs) k .null)) =
        deriveId (JsValue.obj (trimFields fs)) := by
      unfold deriveId
      rw [hgf "id" (Ne.symm hkid), hreadStr "name"]
    have hcand : ∀ key,
        (buildCandidate (JsValue.obj (setKey (trimFields fs) k .null))).getField key =
          (buildCandidate (JsValue.obj (trimFields fs))).getField key := by
      intro key
      by_cases e1 : key = "id"
      · subst e1
        rw [getField_buildCandidate_id, getField_buildCandidate_id, hderive]
      by_cases e2 : key = "name"
      · subst e2
        rw [getField_buildCandidate_name, getField_buildCandidate_name, hreadStr "name"]
      by_cases e3 : key = "description"
      · subst e3
        rw [getField_buildCandidate_description, getField_buildCandidate_description,
          hreadStr "description"]
      by_cases e4 : key = "category"
      · subst e4
        rw [getField_buildCandidate_category, getField_buildCandidate_category,
          hreadStr "category"]
      by_cases e5 : key = "prepLevel"
      · subst e5
        rw [getField_buildCandidate_prepLevel, getField_buildCandidate_prepLevel,
          hreadStr "prepLevel"]
      by_cases e6 : key = "ageMin"
      · subst e6
        rw [getField_buildCandidate_ageMin, getField_buildCandidate_ageMin,
          hgf "ageMin" (Ne.symm hkAmin), hgf "ageMax" (Ne.symm hkAmax)]
      by_cases e7 : key = "ageMax"
      · subst e7
        rw [getField_buildCandidate_ageMax, getField_buildCandidate_ageMax,
          hgf "ageMin" (Ne.symm hkAmin), hgf "ageMax" (Ne.symm hkAmax)]
      by_cases e8 : key = "playersMin"
      · subst e8
        rw [getField_buildCandidate_playersMin, getField_buildCandidate_playersMin,
          hgf "playersMin" (Ne.symm hkPmin), hgf "playersMax" (Ne.symm hkPmax)]
      by_cases e9 : key = "playersMax"
      · subst e9
        rw [getField_buildCandidate_playersMax, getField_buildCandidate_playersMax,
          hgf "playersMin" (Ne.symm hkPmin), hgf "playersMax" (Ne.symm hkPmax)]
      have hkey : key ≠ k := by
        rcases hks with rfl | rfl | rfl
        · exact e3
        · exact e4
        · exact e5
      rw [getField_buildCandidate, getField_buildCandidate,
        lookupField_candidate_other _ key e1 e2 e3 e4 e5 e6 e7 e8 e9,
        lookupField_candidate_other _ key e1 e2 e3 e4 e5 e6 e7 e8 e9]
      have h10 := hgf key hkey
      rw [getField_obj, getField_obj] at h10
      simpa [objFields] using h10
    constructor
    · rw [hset, recordOutcome_obj, recordOutcome_obj, htf2]
      unfold recordCandidate
      rw [hderive]
      by_cases hid : deriveId (JsValue.obj (trimFields fs)) = ""
      · rw [if_pos hid, if_pos hid]
      · rw [if_neg hid, if_neg hid]
        simp only [Option.some_bind]
        exact (validateGame_congr (buildCandidate_obj _) (buildCandidate_obj _) hcand).symm
    · intro g hg
      rw [recordOutcome_obj] at hg
      unfold recordCandidate at hg
      by_cases hid : deriveId (JsValue.obj (trimFields fs)) = ""
      · rw [if_pos hid] at hg
        exact absurd hg (by simp)
      · rw [if_neg hid] at hg
        simp only [Option.some_bind] at hg
        unfold validateGame at hg
        by_cases hok : gameSchemaCheck (buildCandidate (JsValue.obj (trimFields fs)))
        · rw [if_pos hok] at hg
          injection hg with hg
          subst hg
          rcases hks with rfl | rfl | rfl
          · show readOptStr
              ((buildCandidate (JsValue.obj (trimFields fs))).getField "description") = none
            rw [getField_buildCandidate_description, readStr?_eq_none ht1k]
            rfl
          · show readOptStr
              ((buildCandidate (JsValue.obj (trimFields fs))).getField "category") = none
            rw [getField_buildCandidate_category, readStr?_eq_none ht1k]
            rfl
          · show readOptStr
              ((buildCandidate (JsValue.obj (trimFields fs))).getField "prepLevel") = none
            rw [getField_buildCandidate_prepLevel, readStr?_eq_none ht1k]
            rfl
        · rw [if_neg hok] at hg
          exact absurd hg (by simp)

/-- C10 witness: a record whose `description` is the number 3, checked against
the theorem: the outcome matches the null-description record and the
resulting entity has a null description. -/
theorem coerced_optional_fields_witness :
    recordOutcome sampleNumDescription =
      recordOutcome (setObjKey sampleNumDescription "description" .null) ∧
    gameStrField gameTag "description" = none := by
  obtain ⟨h1, h2⟩ := coerced_optional_fields sampleNumDescription "description"
    (by decide) (fun s h => by exact JsValue.noConfusion (by simpa using h))
    (by intro h; exact JsValue.noConfusion (by simpa using h))
  refine ⟨h1, ?_⟩
  have hout : recordOutcome sampleNumDescription = some gameTag := rfl
  exact h2 gameTag hout


/-- C2: the claim that per-record normalisation never throws is contradicted
by the code — a `null` entry in `games.json` makes the property read
`trimmedGame.name` throw a `TypeError`, and the whole `loadGames` call (not
just the one record) fails. -/
theorem pipeline_throws_on_null :
    normalizeRecord JsValue.null = .error () ∧
    loadGames [sampleTag, JsValue.null] = .error () :=
  ⟨rfl, rfl⟩

theorem recordAdmit_of_empty {r : JsValue} (h : recId r = "") : recordAdmit r = none := by
  unfold recordAdmit recordCandidate
  rw [show deriveId (trimStrings r) = recId r from rfl, if_pos h]
  rfl

theorem validateGame_candidate_id {t : JsValue} {g : Game}
    (h : validateGame (buildCandidate t) = some g) : g.id = deriveId t := by
  unfold validateGame at h
  by_cases hok : gameSchemaCheck (buildCandidate t)
  · rw [if_pos hok] at h
    injection h with h
    subst h
    show readReqStr ((buildCandidate t).getField "id") = deriveId t
    rw [getField_buildCandidate_id]
    rfl
  · rw [if_neg hok] at h
    exact absurd h (by simp)

theorem loadAux_filter (rs : List JsValue) :
    ∀ (seen : List String) (gs : List Game) (X : String), loadAux seen rs = .ok gs →
      (X ∈ seen → gs.filter (fun g => g.id = X) = []) ∧
      (X ∉ seen → gs.filter (fun g => g.id = X) =
        ((rs.find? (fun r => recId r = X)).bind recordAdmit).toList) := by
  induction rs with
  | nil =>
    intro seen gs X h
    injection h with h
    subst h
    exact ⟨fun _ => rfl, fun _ => rfl⟩
  | cons r rs ih =>
    intro seen gs X h
    unfold loadAux at h
    cases hstep : loadStep seen r with
    | error e => rw [hstep] at h; exact absurd h (by simp)
    | ok p =>
      obtain ⟨seen', g?⟩ := p
      rw [hstep] at h
      have h2 : (match loadAux seen' rs with
        | Except.error e => Except.error e
        | Except.ok gs => Except.ok (g?.toList ++ gs)) = Except.ok gs := h
      clear h
      cases htail : loadAux seen' rs with
      | error e => rw [htail] at h2; exact absurd h2 (by simp)
      | ok tgs =>
        rw [htail] at h2
        injection h2 with h2
        subst h2
        unfold loadStep at hstep
        by_cases hnl : isNullish (trimStrings r)
        · rw [if_pos hnl] at hstep; exact absurd hstep (by simp)
        · rw [if_neg hnl] at hstep
          have hstep2 : (if recId r = "" ∨ recId r ∈ seen
              then Except.ok (seen, (none : Option Game))
              else Except.ok (seen ++ [recId r],
                validateGame (buildCandidate (trimStrings r)))) =
              Except.ok (seen', g?) := hstep
          clear hstep
          by_cases hskip : recId r = "" ∨ recId r ∈ seen
          · rw [if_pos hskip] at hstep2
            injection hstep2 with hstep2
            injection hstep2 with hseen hg
            subst hseen
            subst hg
            simp only [show ((none : Option Game).toList) = [] from rfl, List.nil_append]
            constructor
            · intro hX
              exact (ih seen tgs X htail).1 hX
            · intro hX
              by_cases hrX : recId r = X
              · have hX0 : X = "" := by
                  rcases hskip with h0 | h0
                  · rw [← hrX]; exact h0
                  · exact absurd (hrX ▸ h0) hX
                rw [List.find?_cons_of_pos _ (by simp [hrX]), Option.some_bind,
                  recordAdmit_of_empty (by rw [hrX, hX0])]
                have h3 : ((rs.find? (fun r' => recId r' = X)).bind recordAdmit) = none := by
                  cases hf : rs.find? (fun r' => recId r' = X) with
                  | none => rfl
                  | some r' =>
                    have h4 := List.find?_some hf
                    show recordAdmit r' = none
                    exact recordAdmit_of_empty (by rw [of_decide_eq_true h4, hX0])
                rw [(ih seen tgs X htail).2 hX, h3]
              · rw [List.find?_cons_of_neg _ (by simp [hrX])]
                exact (ih seen tgs X htail).2 hX
          · rw [if_neg hskip] at hstep2
            injection hstep2 with hstep2
            injection hstep2 with hseen hg
            subst hseen
            subst hg
            rw [List.filter_append]
            have hnotin : recId r ∉ seen := fun hmem => hskip (Or.inr hmem)
            constructor
            · intro hX
              have hne : recId r ≠ X := fun he => hnotin (he ▸ hX)
              have hgf : (validateGame (buildCandidate (trimStrings r))).toList.filter
                  (fun g => g.id = X) = [] := by
                cases hv : validateGame (buildCandidate (trimStrings r)) with
                | none => rfl
                | some g =>
                  have hgid2 : g.id = recId r := validateGame_candidate_id hv
                  simp [Option.toList, List.filter, hgid2, hne]
              rw [hgf, List.nil_append]
              exact (ih _ tgs X htail).1 (List.mem_append_left _ hX)
            · intro hX
              by_cases hrX : recId r = X
              · rw [List.find?_cons_of_pos _ (by simp [hrX])]
                have hra : recordAdmit r = validateGame (buildCandidate (trimStrings r)) := by
                  unfold recordAdmit recordCandidate
                  have hid0 : ¬deriveId (trimStrings r) = "" := fun h0 => hskip (Or.inl h0)
                  rw [if_neg hid0]
                  rfl
                have hgf : (validateGame (buildCandidate (trimStrings r))).toList.filter
                    (fun g => g.id = X) =
                    (validateGame (buildCandidate (trimStrings r))).toList := by
                  cases hv : validateGame (buildCandidate (trimStrings r)) with
                  | none => rfl
                  | some g =>
                    have hgid2 : g.id = recId r := validateGame_candidate_id hv
                    simp [Option.toList, List.filter, hgid2, hrX]
                have htl := (ih _ tgs X htail).1
                  (by rw [← hrX]; exact List.mem_append_right _ (by simp))
                rw [hgf, htl, List.append_nil]
                show (validateGame (buildCandidate (trimStrings r))).toList =
                  (recordAdmit r).toList
                rw [hra]
              · rw [List.find?_cons_of_neg _ (by simp [hrX])]
                have hgf : (validateGame (buildCandidate (trimStrings r))).toList.filter
                    (fun g => g.id = X) = [] := by
                  cases hv : validateGame (buildCandidate (trimStrings r)) with
                  | none => rfl
                  | some g =>
                    have hgid2 : g.id = recId r := validateGame_candidate_id hv
                    simp [Option.toList, List.filter, hgid2, hrX]
                rw [hgf, List.nil_append]
                refine (ih _ tgs X htail).2 ?_
                intro hmem
                rcases List.mem_append.mp hmem with h0 | h0
                · exact hX h0
                · exact hrX ((List.mem_singleton.mp h0).symm)

/-- C1: for every raw stream on which `loadGames` completes, the catalogue's
records with id `X` are exactly the validated first stream record that derives
id `X` — the first occurrence wins, and because de-duplication runs before
validation, an invalid first occurrence of `X` leaves no record with id `X`
even when later records with that id would validate. -/
theorem dedup_first_occurrence (rs : List JsValue) (gs : List Game) (X : String)
    (h : loadGames rs = .ok gs) :
    gs.filter (fun g => g.id = X) =
      ((rs.find? (fun r => recId r = X)).bind recordAdmit).toList :=
  (loadAux_filter rs [] gs X h).2 (by simp)

/-- C1 witness: an invalid record with id `tag` followed by a valid record
with the same id — the catalogue retains neither, as the theorem's right-hand
side (the rejected first occurrence) dictates. -/
theorem dedup_first_occurrence_witness :
    ([] : List Game).filter (fun g => g.id = "tag") =
      (([sampleBadTag, sampleTag].find? (fun r => recId r = "tag")).bind
        recordAdmit).toList :=
  dedup_first_occurrence [sampleBadTag, sampleTag] [] "tag" rfl

theorem loadAux_nodup (rs : List JsValue) :
    ∀ (seen : List String) (gs : List Game), loadAux seen rs = .ok gs →
      (∀ g ∈ gs, g.id ∉ seen) ∧ (gs.map Game.id).Nodup := by
  induction rs with
  | nil =>
    intro seen gs h
    injection h with h
    subst h
    exact ⟨by simp, by simp⟩
  | cons r rs ih =>
    intro seen gs h
    unfold loadAux at h
    cases hstep : loadStep seen r with
    | error e => rw [hstep] at h; exact absurd h (by simp)
    | ok p =>
      obtain ⟨seen', g?⟩ := p
      rw [hstep] at h
      have h2 : (match loadAux seen' rs with
        | Except.error e => Except.error e
        | Except.ok gs => Except.ok (g?.toList ++ gs)) = Except.ok gs := h
      clear h
      cases htail : loadAux seen' rs with
      | error e => rw [htail] at h2; exact absurd h2 (by simp)
      | ok tgs =>
        rw [htail] at h2
        injection h2 with h2
        subst h2
        unfold loadStep at hstep
        by_cases hnl : isNullish (trimStrings r)
        · rw [if_pos hnl] at hstep; exact absurd hstep (by simp)
        · rw [if_neg hnl] at hstep
          have hstep2 : (if recId r = "" ∨ recId r ∈ seen
              then Except.ok (seen, (none : Option Game))
              else Except.ok (seen ++ [recId r],
                validateGame (buildCandidate (trimStrings r)))) =
              Except.ok (seen', g?) := hstep
          clear hstep
          by_cases hskip : recId r = "" ∨ recId r ∈ seen
          · rw [if_pos hskip] at hstep2
            injection hstep2 with hstep2
            injection hstep2 with hseen hg
            subst hseen
            subst hg
            simpa [Option.toList] using ih seen tgs htail
          · rw [if_neg hskip] at hstep2
            injection hstep2 with hstep2
            injection hstep2 with hseen hg
            subst hseen
            subst hg
            have hnotin : recId r ∉ seen := fun hmem => hskip (Or.inr hmem)
            obtain ⟨htid, htnd⟩ := ih _ tgs htail
            cases hv : validateGame (buildCandidate (trimStrings r)) with
            | none =>
              simp only [hv, Option.toList, List.nil_append]
              refine ⟨fun g hg0 => ?_, htnd⟩
              intro hmem
              exact htid g hg0 (List.mem_append_left _ hmem)
            | some g =>
              have hgid := validateGame_candidate_id hv
              simp only [hv, Option.toList, List.singleton_append]
              constructor
              · intro g' hg'
                rcases List.mem_cons.mp hg' with rfl | hg'
                · rw [hgid]; exact hnotin
                · intro hmem
                  exact htid g' hg' (List.mem_append_left _ hmem)
              · rw [List.map_cons]
                refine List.nodup_cons.mpr ⟨?_, htnd⟩
                intro hmem
                rcases List.mem_map.mp hmem with ⟨g', hg', hid⟩
                refine htid g' hg' ?_
                rw [hid, hgid]
                exact List.mem_append_right _ (List.mem_singleton.mpr rfl)

/-- C3: no two records in the catalogue produced by `loadGames` share an id,
for every input stream on which the loader completes. -/
theorem catalog_ids_unique (rs : List JsValue) (gs : List Game)
    (h : loadGames rs = .ok gs) : (gs.map Game.id).Nodup :=
  (loadAux_nodup rs [] gs h).2

/-- C3 witness: feeding the same record twice yields a single catalogue entry
with distinct ids overall. -/
theorem catalog_ids_unique_witness :
    loadGames [sampleTag, sampleTag] = .ok [gameTag] ∧
    (([gameTag] : List Game).map Game.id).Nodup :=
  ⟨rfl, catalog_ids_unique [sampleTag, sampleTag] [gameTag] rfl⟩


theorem scalar_facet_eq (sel : List String) (v : Option String) (hv : v ≠ some "") :
    scalarFacetPasses sel v = specFacetHolds sel v.toList := by
  cases v with
  | none =>
    rw [Bool.eq_iff_iff]
    simp [scalarFacetPasses, specFacetHolds]
  | some s =>
    have hs : s ≠ "" := fun he => hv (by rw [he])
    rw [Bool.eq_iff_iff]
    simp [scalarFacetPasses, specFacetHolds, hs, List.any_eq_true]

theorem array_facet_eq (sel vs : List String) :
    arrayFacetPasses sel vs = specFacetHolds sel vs := by
  rw [Bool.eq_iff_iff]
  simp only [arrayFacetPasses, specFacetHolds, Bool.or_eq_true, List.any_eq_true,
    List.elem_iff]
  constructor
  · rintro (h | ⟨t, h1, h2⟩)
    · exact Or.inl h
    · exact Or.inr ⟨t, h2, h1⟩
  · rintro (h | ⟨t, h1, h2⟩)
    · exact Or.inl h
    · exact Or.inr ⟨t, h2, h1⟩

/-- C5 counterexample: the claim fails as stated — a catalogue record whose
`traditionality` is the empty string has non-empty intersection with the
selection containing the empty string, yet the code's falsiness check
excludes it. -/
theorem filter_facet_semantics_cex :
    filteredGames (fun _ => []) [gameEmptyTrad] filtersEmptyTrad ≠
      ([gameEmptyTrad] : List Game).filter
        (fun g => specSatisfiesFacets filtersEmptyTrad g) := by
  decide

/-- C5 (amended): for catalogues and search results whose scalar facet fields
are never the empty string (the data-model invariant), the filtering step
keeps exactly the records with non-empty intersection against every non-empty
facet selection (AND across facets, OR within a facet, empty selections
unconstrained), over the catalogue in original order when the trimmed query
is empty and over the search results otherwise. -/
theorem filter_facet_semantics (search : String → List Game) (allGames : List Game)
    (f : FiltersState)
    (h1 : ∀ g ∈ allGames, scalarsNonEmpty g)
    (h2 : ∀ q, ∀ g ∈ search q, scalarsNonEmpty g) :
    filteredGames search allGames f =
      (if jsTrim f.query = "" then allGames else search (jsTrim f.query)).filter
        (fun g => specSatisfiesFacets f g) := by
  unfold filteredGames
  apply List.filter_congr
  intro g hg
  have hok : scalarsNonEmpty g := by
    by_cases hq : jsTrim f.query = ""
    · rw [if_pos hq] at hg; exact h1 g hg
    · rw [if_neg hq] at hg; exact h2 _ g hg
  obtain ⟨hc, ht, hp⟩ := hok
  unfold matchesFilters specSatisfiesFacets
  rw [scalar_facet_eq _ _ hc, scalar_facet_eq _ _ ht, scalar_facet_eq _ _ hp,
    array_facet_eq, array_facet_eq, array_facet_eq]

/-- C5 witness: a two-record catalogue filtered on `category = Party` keeps
exactly the matching record. -/
theorem filter_facet_semantics_witness :
    filteredGames (fun _ => []) [gameParty, gameTag] filtersParty =
      ([gameParty, gameTag] : List Game).filter
        (fun g => specSatisfiesFacets filtersParty g) :=
  filter_facet_semantics (fun _ => []) [gameParty, gameTag] filtersParty
    (by
      intro g hg
      rcases List.mem_cons.mp hg with rfl | hg
      · exact ⟨by decide, by decide, by decide⟩
      rcases List.mem_cons.mp hg with rfl | hg
      · exact ⟨by decide, by decide, by decide⟩
      · simp at hg)
    (by intro q g hg; simp at hg)

theorem jsSlice_window {α : Type} (l : List α) (p : Int) (hp : 1 ≤ p) :
    jsSlice l ((p - 1) * 12) (p * 12) = (l.drop (((p - 1) * 12).toNat)).take 12 := by
  have ha : ¬(p - 1) * 12 < 0 := by
    push_neg
    exact mul_nonneg (by omega) (by norm_num)
  have hb : ¬p * 12 < 0 := by
    push_neg
    exact mul_nonneg (by omega) (by norm_num)
  simp only [jsSlice, ha, hb, if_false]
  by_cases h1 : (l.length : Int) ≤ (p - 1) * 12
  · rw [min_eq_right h1]
    have hd1 : l.drop ((l.length : Int)).toNat = [] := by
      simp
    have hd2 : l.drop (((p - 1) * 12).toNat) = [] :=
      List.drop_eq_nil_of_le (by omega)
    rw [hd1, hd2]
    simp
  · push_neg at h1
    rw [min_eq_left (le_of_lt h1)]
    by_cases h2 : p * 12 ≤ (l.length : Int)
    · rw [min_eq_left h2]
      congr 1
      omega
    · push_neg at h2
      rw [min_eq_right (le_of_lt h2)]
      rw [List.take_of_length_le, List.take_of_length_le]
      · rw [List.length_drop]
        omega
      · rw [List.length_drop]
        omega

/-- C6: for every filtered result and every requested page value (absent,
empty, non-numeric, zero, negative, or far out of range), the effective page
lies in `[1, max(1, ceil(totalCount / 12))]` and the returned slice is the
window `[(page-1)*12, page*12)`. -/
theorem pagination_clamped (v : Option String) (gs : List Game) :
    1 ≤ currentPage (parsePageParam v) (totalPagesOf gs.length) ∧
    currentPage (parsePageParam v) (totalPagesOf gs.length) ≤
      (max 1 (totalPagesOf gs.length) : Nat) ∧
    paginatedGames gs (currentPage (parsePageParam v) (totalPagesOf gs.length)) =
      (gs.drop (((currentPage (parsePageParam v) (totalPagesOf gs.length) - 1) *
        12).toNat)).take 12 := by
  have hp1 : 1 ≤ parsePageParam v := by
    cases v with
    | none => exact le_refl 1
    | some s =>
      simp only [parsePageParam]
      by_cases hs : s = ""
      · simp [hs]
      · rw [if_neg hs]
        cases jsParseInt s with
        | none => exact le_refl 1
        | some n =>
          show 1 ≤ if n < 1 then 1 else n
          split <;> omega
  have hcp1 : 1 ≤ currentPage (parsePageParam v) (totalPagesOf gs.length) := by
    unfold currentPage
    refine le_min hp1 ?_
    split <;> omega
  refine ⟨hcp1, ?_, jsSlice_window gs _ hcp1⟩
  unfold currentPage
  refine (min_le_right _ _).trans ?_
  split <;> omega


theorem mem_jsSetDedupAux (l : List String) :
    ∀ (seen : List String) (a : String),
      a ∈ jsSetDedupAux seen l ↔ (a ∈ l ∧ a ∉ seen) := by
  induction l with
  | nil => intro seen a; simp [jsSetDedupAux]
  | cons x xs ih =>
    intro seen a
    by_cases h : x ∈ seen
    · rw [jsSetDedupAux, if_pos h, ih]
      constructor
      · rintro ⟨h1, h2⟩
        exact ⟨List.mem_cons_of_mem _ h1, h2⟩
      · rintro ⟨h1, h2⟩
        rcases List.mem_cons.mp h1 with rfl | h1
        · exact absurd h h2
        · exact ⟨h1, h2⟩
    · rw [jsSetDedupAux, if_neg h]
      constructor
      · intro h1
        rcases List.mem_cons.mp h1 with rfl | h1
        · exact ⟨List.mem_cons_self _ _, h⟩
        · rw [ih] at h1
          refine ⟨List.mem_cons_of_mem _ h1.1, fun h2 => h1.2 ?_⟩
          exact List.mem_append_left _ h2
      · rintro ⟨h1, h2⟩
        rcases List.mem_cons.mp h1 with rfl | h1
        · exact List.mem_cons_self _ _
        · by_cases hax : a = x
          · subst hax; exact List.mem_cons_self _ _
          · refine List.mem_cons_of_mem _ ((ih _ a).mpr ⟨h1, fun h3 => ?_⟩)
            rcases List.mem_append.mp h3 with h3 | h3
            · exact h2 h3
            · exact hax (List.mem_singleton.mp h3)

theorem jsSetDedupAux_nodup (l : List String) :
    ∀ seen : List String, (jsSetDedupAux seen l).Nodup := by
  induction l with
  | nil => intro seen; simp [jsSetDedupAux]
  | cons x xs ih =>
    intro seen
    by_cases h : x ∈ seen
    · rw [jsSetDedupAux, if_pos h]; exact ih seen
    · rw [jsSetDedupAux, if_neg h]
      refine List.nodup_cons.mpr ⟨fun hmem => ?_, ih _⟩
      have h2 := ((mem_jsSetDedupAux xs _ x).mp hmem).2
      exact h2 (List.mem_append_right _ (List.mem_singleton.mpr rfl))

theorem jsSetDedupAux_eq_self (l : List String) :
    ∀ seen : List String, l.Nodup → (∀ a ∈ l, a ∉ seen) → jsSetDedupAux seen l = l := by
  induction l with
  | nil => intro seen _ _; rfl
  | cons x xs ih =>
    intro seen hnd hout
    rw [jsSetDedupAux, if_neg (hout x (List.mem_cons_self _ _))]
    congr 1
    refine ih _ (List.nodup_cons.mp hnd).2 ?_
    intro a ha hmem
    rcases List.mem_append.mp hmem with h1 | h1
    · exact hout a (List.mem_cons_of_mem _ ha) h1
    · exact (List.nodup_cons.mp hnd).1 (List.mem_singleton.mp h1 ▸ ha)

theorem jsSetDedup_nodup (l : List String) : (jsSetDedup l).Nodup :=
  jsSetDedupAux_nodup l []

theorem mem_jsSetDedup {l : List String} {a : String} : a ∈ jsSetDedup l ↔ a ∈ l := by
  rw [jsSetDedup, mem_jsSetDedupAux]
  simp

theorem jsSetDedup_eq_self {l : List String} (h : l.Nodup) : jsSetDedup l = l :=
  jsSetDedupAux_eq_self l [] h (by simp)

theorem sortStrings_perm (l : List String) : List.Perm (sortStrings l) l :=
  List.perm_insertionSort _ _

theorem sortStrings_sorted (l : List String) : List.Sorted strLe (sortStrings l) :=
  List.sorted_insertionSort _ _

theorem sortStrings_eq_self {l : List String} (h : List.Sorted strLe l) :
    sortStrings l = l :=
  h.insertionSort_eq

theorem mem_canonVals {l : List String} {a : String} (h : a ∈ canonVals l) :
    jsTrim a = a ∧ a ≠ "" := by
  unfold canonVals at h
  by_cases he : ((l.map jsTrim).filter (fun s => ¬s = "")).isEmpty
  · rw [if_pos he] at h; simp at h
  · rw [if_neg he] at h
    have h2 : a ∈ (l.map jsTrim).filter (fun s => ¬s = "") :=
      mem_jsSetDedup.mp ((sortStrings_perm _).subset h)
    have h3 := List.mem_filter.mp h2
    rcases List.mem_map.mp h3.1 with ⟨b, _, rfl⟩
    refine ⟨jsTrim_idem b, ?_⟩
    simpa using h3.2

theorem canonVals_nodup (l : List String) : (canonVals l).Nodup := by
  simp only [canonVals]
  split
  · exact List.nodup_nil
  · exact (sortStrings_perm _).nodup_iff.mpr (jsSetDedup_nodup _)

theorem canonVals_sorted (l : List String) : List.Sorted strLe (canonVals l) := by
  simp only [canonVals]
  split
  · exact List.sorted_nil
  · exact sortStrings_sorted _

theorem canonVals_fixed (l : List String) : canonVals (canonVals l) = canonVals l := by
  suffices H : ∀ c : List String, (∀ a ∈ c, jsTrim a = a ∧ a ≠ "") → c.Nodup →
      List.Sorted strLe c → canonVals c = c by
    exact H (canonVals l) (fun a ha => mem_canonVals ha) (canonVals_nodup l)
      (canonVals_sorted l)
  intro c hmem hnd hsrt
  have hmap : c.map jsTrim = c := by
    have h1 : c.map jsTrim = c.map id := List.map_congr_left (fun a ha => (hmem a ha).1)
    rw [h1, List.map_id]
  have hfil : c.filter (fun s => ¬s = "") = c :=
    List.filter_eq_self.mpr (fun a ha => by simpa using (hmem a ha).2)
  simp only [canonVals, hmap, hfil]
  by_cases he : c.isEmpty
  · rw [if_pos he, List.isEmpty_iff.mp he]
  · rw [if_neg he, jsSetDedup_eq_self hnd, sortStrings_eq_self hsrt]


theorem isDigitChar_digitChar10 {d : Nat} (h : d < 10) :
    isDigitChar (digitChar10 d) = true := by
  interval_cases d <;> decide

theorem charDigit10_digitChar10 {d : Nat} (h : d < 10) :
    charDigit10 (digitChar10 d) = d := by
  interval_cases d <;> decide

theorem digitChar10_ne_dash {d : Nat} (h : d < 10) : digitChar10 d ≠ '-' := by
  interval_cases d <;> decide

theorem takeWhile_all_digits {l : List Char} (h : ∀ c ∈ l, isDigitChar c = true) :
    l.takeWhile isDigitChar = l := by
  induction l with
  | nil => rfl
  | cons a l ih =>
    rw [List.takeWhile_cons_of_pos (h a (List.mem_cons_self _ _)),
      ih (fun c hc => h c (List.mem_cons_of_mem _ hc))]

theorem parseDigitsCore_numeral {n : Nat} (h : 1 ≤ n) :
    parseDigitsCore ((Nat.digits 10 n).reverse.map digitChar10) = some (n : Int) := by
  have hdig : ∀ c ∈ (Nat.digits 10 n).reverse.map digitChar10, isDigitChar c = true := by
    intro c hc
    rcases List.mem_map.mp hc with ⟨d, hd, rfl⟩
    exact isDigitChar_digitChar10 (Nat.digits_lt_base (by norm_num) (List.mem_reverse.mp hd))
  have hne : (Nat.digits 10 n).reverse.map digitChar10 ≠ [] := by
    simp [Nat.digits_ne_nil_iff_ne_zero, show n ≠ 0 by omega]
  simp only [parseDigitsCore]
  rw [takeWhile_all_digits hdig, if_neg hne]
  congr 1
  rw [List.map_map]
  have hmap : (Nat.digits 10 n).reverse.map (charDigit10 ∘ digitChar10) =
      (Nat.digits 10 n).reverse.map id := by
    apply List.map_congr_left
    intro d hd
    exact charDigit10_digitChar10 (Nat.digits_lt_base (by norm_num) (List.mem_reverse.mp hd))
  rw [hmap, List.map_id, List.reverse_reverse, Nat.ofDigits_digits]

theorem jsParseInt_natNumeral {n : Nat} (h : 1 ≤ n) :
    jsParseInt (natNumeral n) = some (n : Int) := by
  have hne : ¬n = 0 := by omega
  unfold natNumeral
  rw [if_neg hne]
  cases hd : (Nat.digits 10 n).reverse.map digitChar10 with
  | nil =>
    exfalso
    have : Nat.digits 10 n = [] := by simpa using hd
    exact Nat.digits_ne_nil_iff_ne_zero.mpr hne this
  | cons c cs =>
    have hcd : c ≠ '-' := by
      have hc : c ∈ (Nat.digits 10 n).reverse.map digitChar10 := by
        rw [hd]; exact List.mem_cons_self _ _
      rcases List.mem_map.mp hc with ⟨d, hdm, rfl⟩
      exact digitChar10_ne_dash (Nat.digits_lt_base (by norm_num) (List.mem_reverse.mp hdm))
    rw [show jsParseInt (String.mk (c :: cs)) =
      if c = '-' then (parseDigitsCore cs).map (fun n => -n)
      else parseDigitsCore (c :: cs) from rfl, if_neg hcd, ← hd]
    exact parseDigitsCore_numeral h

theorem natNumeral_ne_empty {n : Nat} (h : 1 ≤ n) : natNumeral n ≠ "" := by
  unfold natNumeral
  rw [if_neg (show ¬n = 0 by omega)]
  intro he
  have h2 : ((Nat.digits 10 n).reverse.map digitChar10) = [] := congrArg String.data he
  have h3 : Nat.digits 10 n = [] := by simpa using h2
  exact Nat.digits_ne_nil_iff_ne_zero.mpr (by omega) h3

theorem parsePageParam_intToString {p : Int} (h : 1 ≤ p) :
    parsePageParam (some (intToString p)) = p := by
  have hnn : ¬p < 0 := by omega
  unfold intToString
  rw [if_neg hnn]
  have h1 : 1 ≤ p.toNat := by omega
  simp only [parsePageParam]
  rw [if_neg (natNumeral_ne_empty h1), jsParseInt_natNumeral h1]
  show (if ((p.toNat : Nat) : Int) < 1 then 1 else ((p.toNat : Nat) : Int)) = p
  rw [if_neg (by omega), Int.toNat_of_nonneg (by omega)]

theorem getParam_eq_none {ps : List (String × String)} {k : String}
    (h : ∀ p ∈ ps, p.1 ≠ k) : getParam ps k = none := by
  unfold getParam
  rw [List.find?_eq_none.mpr]
  · rfl
  · intro p hp
    simp [h p hp]

theorem getParam_append_none {ps qs : List (String × String)} {k : String}
    (h : getParam ps k = none) : getParam (ps ++ qs) k = getParam qs k := by
  have h2 : ps.find? (fun p => p.1 = k) = none := by
    cases hf : ps.find? (fun p => p.1 = k) with
    | none => rfl
    | some x =>
      unfold getParam at h
      rw [hf] at h
      simp at h
  unfold getParam
  rw [List.find?_append, h2]
  rfl

theorem getParam_append_none2 {ps qs : List (String × String)} {k : String}
    (h1 : getParam ps k = none) (h2 : getParam qs k = none) :
    getParam (ps ++ qs) k = none := by
  rw [getParam_append_none h1]
  exact h2

theorem getAllParam_append (ps qs : List (String × String)) (k : String) :
    getAllParam (ps ++ qs) k = getAllParam ps k ++ getAllParam qs k := by
  unfold getAllParam
  rw [List.filterMap_append]

theorem facetPairs_key {k : String} {vs : List String} {p : String × String}
    (h : p ∈ facetPairs k vs) : p.1 = k := by
  rcases List.mem_map.mp h with ⟨v, _, rfl⟩
  rfl

theorem getParam_facetPairs_ne (k' k : String) (vs : List String) (h : k' ≠ k) :
    getParam (facetPairs k' vs) k = none :=
  getParam_eq_none (fun p hp => by rw [facetPairs_key hp]; exact h)

theorem getAllParam_facetPairs_self (k : String) (vs : List String) :
    getAllParam (facetPairs k vs) k = vs := by
  unfold getAllParam facetPairs
  rw [List.filterMap_map]
  have h1 : ((fun p : String × String => if p.1 = k then some p.2 else none) ∘
      fun v => (k, v)) = some := by
    funext v
    simp
  rw [h1, List.filterMap_some]

theorem getAllParam_facetPairs_ne (k' k : String) (vs : List String) (h : k' ≠ k) :
    getAllParam (facetPairs k' vs) k = [] := by
  unfold getAllParam facetPairs
  rw [List.filterMap_map]
  have h1 : ((fun p : String × String => if p.1 = k then some p.2 else none) ∘
      fun v => (k', v)) = fun _ => none := by
    funext v
    simp [h]
  rw [h1]
  exact List.filterMap_eq_nil_iff.mpr (fun a _ => rfl)

theorem getParam_qPart_ne (f : FiltersState) (k : String) (h : k ≠ "q") :
    getParam (if jsTrim f.query = "" then [] else [("q", jsTrim f.query)]) k = none := by
  split
  · rfl
  · exact getParam_eq_none (fun p hp => by
      rw [List.mem_singleton.mp hp]
      intro he
      exact h he.symm)

theorem getAllParam_qPart_ne (f : FiltersState) (k : String) (h : k ≠ "q") :
    getAllParam (if jsTrim f.query = "" then [] else [("q", jsTrim f.query)]) k = [] := by
  split
  · rfl
  · exact List.filterMap_eq_nil_iff.mpr (fun a ha => by
      rw [List.mem_singleton.mp ha]
      exact if_neg (fun he => h he.symm))

theorem getParam_pagePart_ne (f : FiltersState) (tp : Nat) (k : String) (h : k ≠ "page") :
    getParam (if currentPage f.page tp > 1
      then [("page", intToString (currentPage f.page tp))] else []) k = none := by
  split
  · exact getParam_eq_none (fun p hp => by
      rw [List.mem_singleton.mp hp]
      intro he
      exact h he.symm)
  · rfl

theorem getAllParam_pagePart_ne (f : FiltersState) (tp : Nat) (k : String)
    (h : k ≠ "page") :
    getAllParam (if currentPage f.page tp > 1
      then [("page", intToString (currentPage f.page tp))] else []) k = [] := by
  split
  · exact List.filterMap_eq_nil_iff.mpr (fun a ha => by
      rw [List.mem_singleton.mp ha]
      exact if_neg (fun he => h he.symm))
  · rfl


theorem getParam_append_some {ps qs : List (String × String)} {k : String} {v : String}
    (h : getParam ps k = some v) : getParam (ps ++ qs) k = some v := by
  unfold getParam at *
  rw [List.find?_append]
  cases hf : ps.find? (fun p => p.1 = k) with
  | none => rw [hf] at h; simp at h
  | some x =>
    rw [hf] at h
    exact h

set_option maxHeartbeats 1000000 in
theorem getParam_encode_q (f : FiltersState) (tp : Nat) :
    getParam (encodeParams f tp) "q" =
      if jsTrim f.query = "" then none else some (jsTrim f.query) := by
  unfold encodeParams
  by_cases hq : jsTrim f.query = ""
  · rw [if_pos hq, if_pos hq]
    have h0 : getParam ([] : List (String × String)) "q" = none := rfl
    exact getParam_append_none2 (getParam_append_none2 (getParam_append_none2
      (getParam_append_none2 (getParam_append_none2 (getParam_append_none2
        (getParam_append_none2 h0
          (getParam_facetPairs_ne "category" "q" f.category (by decide)))
        (getParam_facetPairs_ne "tags" "q" f.tags (by decide)))
        (getParam_facetPairs_ne "traditionality" "q" f.traditionality (by decide)))
        (getParam_facetPairs_ne "prepLevel" "q" f.prepLevel (by decide)))
        (getParam_facetPairs_ne "skillsDeveloped" "q" f.skillsDeveloped (by decide)))
        (getParam_facetPairs_ne "regionalPopularity" "q" f.regionalPopularity (by decide)))
      (getParam_pagePart_ne f tp "q" (by decide))
  · rw [if_neg hq, if_neg hq]
    have h0 : getParam [("q", jsTrim f.query)] "q" = some (jsTrim f.query) := by
      unfold getParam
      rw [List.find?_cons_of_pos _ (by simp)]
      rfl
    exact getParam_append_some (getParam_append_some (getParam_append_some
      (getParam_append_some (getParam_append_some (getParam_append_some
        (getParam_append_some h0))))))

set_option maxHeartbeats 1000000 in
theorem getParam_encode_page (f : FiltersState) (tp : Nat) :
    getParam (encodeParams f tp) "page" =
      if currentPage f.page tp > 1 then some (intToString (currentPage f.page tp))
      else none := by
  unfold encodeParams
  have hA : getParam ((if jsTrim f.query = "" then [] else [("q", jsTrim f.query)]) ++
      facetPairs "category" f.category ++ facetPairs "tags" f.tags ++
      facetPairs "traditionality" f.traditionality ++
      facetPairs "prepLevel" f.prepLevel ++
      facetPairs "skillsDeveloped" f.skillsDeveloped ++
      facetPairs "regionalPopularity" f.regionalPopularity) "page" = none :=
    getParam_append_none2 (getParam_append_none2 (getParam_append_none2
      (getParam_append_none2 (getParam_append_none2 (getParam_append_none2
        (getParam_qPart_ne f "page" (by decide))
        (getParam_facetPairs_ne "category" "page" f.category (by decide)))
        (getParam_facetPairs_ne "tags" "page" f.tags (by decide)))
        (getParam_facetPairs_ne "traditionality" "page" f.traditionality (by decide)))
        (getParam_facetPairs_ne "prepLevel" "page" f.prepLevel (by decide)))
        (getParam_facetPairs_ne "skillsDeveloped" "page" f.skillsDeveloped (by decide)))
      (getParam_facetPairs_ne "regionalPopularity" "page" f.regionalPopularity (by decide))
  rw [getParam_append_none hA]
  split
  · unfold getParam
    rw [List.find?_cons_of_pos _ (by simp)]
    rfl
  · rfl

theorem getAllParam_encode_category (f : FiltersState) (tp : Nat) :
    getAllParam (encodeParams f tp) "category" = f.category := by
  unfold encodeParams
  rw [getAllParam_append, getAllParam_append, getAllParam_append, getAllParam_append,
    getAllParam_append, getAllParam_append, getAllParam_append,
    getAllParam_qPart_ne f "category" (by decide),
    getAllParam_facetPairs_self "category" f.category,
    getAllParam_facetPairs_ne "tags" "category" f.tags (by decide),
    getAllParam_facetPairs_ne "traditionality" "category" f.traditionality (by decide),
    getAllParam_facetPairs_ne "prepLevel" "category" f.prepLevel (by decide),
    getAllParam_facetPairs_ne "skillsDeveloped" "category" f.skillsDeveloped (by decide),
    getAllParam_facetPairs_ne "regionalPopularity" "category" f.regionalPopularity
      (by decide),
    getAllParam_pagePart_ne f tp "category" (by decide)]
  simp

theorem getAllParam_encode_tags (f : FiltersState) (tp : Nat) :
    getAllParam (encodeParams f tp) "tags" = f.tags := by
  unfold encodeParams
  rw [getAllParam_append, getAllParam_append, getAllParam_append, getAllParam_append,
    getAllParam_append, getAllParam_append, getAllParam_append,
    getAllParam_qPart_ne f "tags" (by decide),
    getAllParam_facetPairs_ne "category" "tags" f.category (by decide),
    getAllParam_facetPairs_self "tags" f.tags,
    getAllParam_facetPairs_ne "traditionality" "tags" f.traditionality (by decide),
    getAllParam_facetPairs_ne "prepLevel" "tags" f.prepLevel (by decide),
    getAllParam_facetPairs_ne "skillsDeveloped" "tags" f.skillsDeveloped (by decide),
    getAllParam_facetPairs_ne "regionalPopularity" "tags" f.regionalPopularity (by decide),
    getAllParam_pagePart_ne f tp "tags" (by decide)]
  simp

theorem getAllParam_encode_traditionality (f : FiltersState) (tp : Nat) :
    getAllParam (encodeParams f tp) "traditionality" = f.traditionality := by
  unfold encodeParams
  rw [getAllParam_append, getAllParam_append, getAllParam_append, getAllParam_append,
    getAllParam_append, getAllParam_append, getAllParam_append,
    getAllParam_qPart_ne f "traditionality" (by decide),
    getAllParam_facetPairs_ne "category" "traditionality" f.category (by decide),
    getAllParam_facetPairs_ne "tags" "traditionality" f.tags (by decide),
    getAllParam_facetPairs_self "traditionality" f.traditionality,
    getAllParam_facetPairs_ne "prepLevel" "traditionality" f.prepLevel (by decide),
    getAllParam_facetPairs_ne "skillsDeveloped" "traditionality" f.skillsDeveloped
      (by decide),
    getAllParam_facetPairs_ne "regionalPopularity" "traditionality" f.regionalPopularity
      (by decide),
    getAllParam_pagePart_ne f tp "traditionality" (by decide)]
  simp

theorem getAllParam_encode_prepLevel (f : FiltersState) (tp : Nat) :
    getAllParam (encodeParams f tp) "prepLevel" = f.prepLevel := by
  unfold encodeParams
  rw [getAllParam_append, getAllParam_append, getAllParam_append, getAllParam_append,
    getAllParam_append, getAllParam_append, getAllParam_append,
    getAllParam_qPart_ne f "prepLevel" (by decide),
    getAllParam_facetPairs_ne "category" "prepLevel" f.category (by decide),
    getAllParam_facetPairs_ne "tags" "prepLevel" f.tags (by decide),
    getAllParam_facetPairs_ne "traditionality" "prepLevel" f.traditionality (by decide),
    getAllParam_facetPairs_self "prepLevel" f.prepLevel,
    getAllParam_facetPairs_ne "skillsDeveloped" "prepLevel" f.skillsDeveloped (by decide),
    getAllParam_facetPairs_ne "regionalPopularity" "prepLevel" f.regionalPopularity
      (by decide),
    getAllParam_pagePart_ne f tp "prepLevel" (by decide)]
  simp

theorem getAllParam_encode_skills (f : FiltersState) (tp : Nat) :
    getAllParam (encodeParams f tp) "skillsDeveloped" = f.skillsDeveloped := by
  unfold encodeParams
  rw [getAllParam_append, getAllParam_append, getAllParam_append, getAllParam_append,
    getAllParam_append, getAllParam_append, getAllParam_append,
    getAllParam_qPart_ne f "skillsDeveloped" (by decide),
    getAllParam_facetPairs_ne "category" "skillsDeveloped" f.category (by decide),
    getAllParam_facetPairs_ne "tags" "skillsDeveloped" f.tags (by decide),
    getAllParam_facetPairs_ne "traditionality" "skillsDeveloped" f.traditionality
      (by decide),
    getAllParam_facetPairs_ne "prepLevel" "skillsDeveloped" f.prepLevel (by decide),
    getAllParam_facetPairs_self "skillsDeveloped" f.skillsDeveloped,
    getAllParam_facetPairs_ne "regionalPopularity" "skillsDeveloped"
      f.regionalPopularity (by decide),
    getAllParam_pagePart_ne f tp "skillsDeveloped" (by decide)]
  simp

theorem getAllParam_encode_regions (f : FiltersState) (tp : Nat) :
    getAllParam (encodeParams f tp) "regionalPopularity" = f.regionalPopularity := by
  unfold encodeParams
  rw [getAllParam_append, getAllParam_append, getAllParam_append, getAllParam_append,
    getAllParam_append, getAllParam_append, getAllParam_append,
    getAllParam_qPart_ne f "regionalPopularity" (by decide),
    getAllParam_facetPairs_ne "category" "regionalPopularity" f.category (by decide),
    getAllParam_facetPairs_ne "tags" "regionalPopularity" f.tags (by decide),
    getAllParam_facetPairs_ne "traditionality" "regionalPopularity" f.traditionality
      (by decide),
    getAllParam_facetPairs_ne "prepLevel" "regionalPopularity" f.prepLevel (by decide),
    getAllParam_facetPairs_ne "skillsDeveloped" "regionalPopularity" f.skillsDeveloped
      (by decide),
    getAllParam_facetPairs_self "regionalPopularity" f.regionalPopularity,
    getAllParam_pagePart_ne f tp "regionalPopularity" (by decide)]
  simp


theorem canonPage_ge_one (f : FiltersState) : (1 : Int) ≤ (canonicalizeClaim f).page := by
  show (1 : Int) ≤ (if f.page < 1 then 1 else f.page)
  split <;> omega

theorem currentPage_canon_ge_one (f : FiltersState) (tp : Nat) :
    (1 : Int) ≤ currentPage (canonicalizeClaim f).page tp := by
  unfold currentPage
  refine le_min (canonPage_ge_one f) ?_
  split
  · exact le_rfl
  · next h => exact_mod_cast Nat.one_le_iff_ne_zero.mpr h

/-- C8 counterexample: with an unsorted `tags` selection the URL-sync effect
emits the values verbatim (`b` before `a`), not in the canonical trimmed,
de-duplicated, sorted order that `buildFiltersFromParams` would produce. -/
theorem encode_verbatim_cex :
    getAllParam (encodeParams filtersUnsortedTags 0) "tags" = ["b", "a"] ∧
    canonVals filtersUnsortedTags.tags = ["a", "b"] ∧
    getAllParam (encodeParams filtersUnsortedTags 0) "tags" ≠
      canonVals filtersUnsortedTags.tags := by decide

/-- C8: what the URL-sync effect actually writes — `q` only for a non-empty
trimmed query, `page` only when the effective current page exceeds 1 (carrying
its decimal numeral), and every facet's in-memory values verbatim, in order,
with no trimming, de-duplication or sorting of its own. -/
theorem encode_emits_verbatim (f : FiltersState) (tp : Nat) :
    getParam (encodeParams f tp) "q" =
      (if jsTrim f.query = "" then none else some (jsTrim f.query)) ∧
    getParam (encodeParams f tp) "page" =
      (if currentPage f.page tp > 1 then some (intToString (currentPage f.page tp))
       else none) ∧
    getAllParam (encodeParams f tp) "category" = f.category ∧
    getAllParam (encodeParams f tp) "tags" = f.tags ∧
    getAllParam (encodeParams f tp) "traditionality" = f.traditionality ∧
    getAllParam (encodeParams f tp) "prepLevel" = f.prepLevel ∧
    getAllParam (encodeParams f tp) "skillsDeveloped" = f.skillsDeveloped ∧
    getAllParam (encodeParams f tp) "regionalPopularity" = f.regionalPopularity :=
  ⟨getParam_encode_q f tp, getParam_encode_page f tp, getAllParam_encode_category f tp,
   getAllParam_encode_tags f tp, getAllParam_encode_traditionality f tp,
   getAllParam_encode_prepLevel f tp, getAllParam_encode_skills f tp,
   getAllParam_encode_regions f tp⟩

/-- C7 counterexample: over an empty catalogue (zero total pages) the canonical
state requesting page 2 encodes with the `page` parameter omitted, so decoding
returns page 1 and the round trip is not the identity on canonical states. -/
theorem url_roundtrip_cex :
    buildFiltersFromParams (encodeParams (canonicalizeClaim filtersPageTwo)
        (totalPagesOf (filteredGames (fun _ => []) []
          (canonicalizeClaim filtersPageTwo)).length)) ≠
      canonicalizeClaim filtersPageTwo := by decide

/-- C7: decoding the encoded form of a canonicalised filter state returns that
state except that the page is clamped to the effective current page
(`min(page, totalPages || 1)`), which drops a requested page beyond the last
page of results. -/
theorem url_roundtrip_clamped (f : FiltersState) (tp : Nat) :
    buildFiltersFromParams (encodeParams (canonicalizeClaim f) tp) =
      { canonicalizeClaim f with
          page := currentPage (canonicalizeClaim f).page tp } := by
  have hq := getParam_encode_q (canonicalizeClaim f) tp
  have hp := getParam_encode_page (canonicalizeClaim f) tp
  have hcat := getAllParam_encode_category (canonicalizeClaim f) tp
  have htags := getAllParam_encode_tags (canonicalizeClaim f) tp
  have htrad := getAllParam_encode_traditionality (canonicalizeClaim f) tp
  have hprep := getAllParam_encode_prepLevel (canonicalizeClaim f) tp
  have hskill := getAllParam_encode_skills (canonicalizeClaim f) tp
  have hreg := getAllParam_encode_regions (canonicalizeClaim f) tp
  have hquery : ((if jsTrim (canonicalizeClaim f).query = "" then none
      else some (jsTrim (canonicalizeClaim f).query)).getD "") =
      (canonicalizeClaim f).query := by
    have hid : jsTrim (canonicalizeClaim f).query = (canonicalizeClaim f).query := by
      show jsTrim (jsTrim f.query) = jsTrim f.query
      exact jsTrim_idem f.query
    rw [hid]
    by_cases h : (canonicalizeClaim f).query = ""
    · rw [if_pos h]; exact h.symm
    · rw [if_neg h]; rfl
  have hpage : parsePageParam (if currentPage (canonicalizeClaim f).page tp > 1
      then some (intToString (currentPage (canonicalizeClaim f).page tp)) else none) =
      currentPage (canonicalizeClaim f).page tp := by
    have h1 := currentPage_canon_ge_one f tp
    by_cases h : currentPage (canonicalizeClaim f).page tp > 1
    · rw [if_pos h]
      exact parsePageParam_intToString (le_of_lt h)
    · rw [if_neg h]
      show (1 : Int) = _
      omega
  have hcatv : canonVals (canonicalizeClaim f).category =
      (canonicalizeClaim f).category := by
    show canonVals (canonVals f.category) = canonVals f.category
    exact canonVals_fixed f.category
  have htagsv : canonVals (canonicalizeClaim f).tags = (canonicalizeClaim f).tags := by
    show canonVals (canonVals f.tags) = canonVals f.tags
    exact canonVals_fixed f.tags
  have htradv : canonVals (canonicalizeClaim f).traditionality =
      (canonicalizeClaim f).traditionality := by
    show canonVals (canonVals f.traditionality) = canonVals f.traditionality
    exact canonVals_fixed f.traditionality
  have hprepv : canonVals (canonicalizeClaim f).prepLevel =
      (canonicalizeClaim f).prepLevel := by
    show canonVals (canonVals f.prepLevel) = canonVals f.prepLevel
    exact canonVals_fixed f.prepLevel
  have hskillv : canonVals (canonicalizeClaim f).skillsDeveloped =
      (canonicalizeClaim f).skillsDeveloped := by
    show canonVals (canonVals f.skillsDeveloped) = canonVals f.skillsDeveloped
    exact canonVals_fixed f.skillsDeveloped
  have hregv : canonVals (canonicalizeClaim f).regionalPopularity =
      (canonicalizeClaim f).regionalPopularity := by
    show canonVals (canonVals f.regionalPopularity) = canonVals f.regionalPopularity
    exact canonVals_fixed f.regionalPopularity
  unfold buildFiltersFromParams
  rw [hq, hp, hcat, htags, htrad, hprep, hskill, hreg,
    hquery, hpage, hcatv, htagsv, htradv, hprepv, hskillv, hregv]
